import Mathlib

/-!
Verification development for the s2 geometry repository: boolean operations,
buffering, builder snapping/graph assembly and the polygon layer.

Go source is embedded shallowly: pure Go functions become Lean functions,
loops become folds or structural recursion, and machine integers become
Nat/Int.  External geometric primitives (chord angles, robust intersection,
containment queries, point arithmetic) are abstracted as parameters, exactly
as the spec treats them (assumed-correct collaborators); chord-angle
comparison between points is modelled by a rational-valued distance/key
function, using the spec's guarantee that the chord angle is a monotonic
surrogate for angular distance.
-/

namespace Geo

/-! ## Boolean operation core (boolean_operation.go, crossing-processor variant)

`BooleanOperationOpType` and `shouldEmit` are translated from the Go source:

    switch b.OpType {
    case Union:                return !inside
    case Intersection:         return inside
    case Difference:           if processingB { return inside }; return !inside
    case SymmetricDifference:  return !inside
    }
    return false
-/

inductive BooleanOperationOpType where
  | union
  | intersection
  | difference
  | symmetricDifference
  deriving DecidableEq, Repr

/-- Translation of `BooleanOperation.shouldEmit` (source: the switch statement
over the operation type; `inside` is the current parity, `processingB` tells
whether the segment comes from the second region). -/
def shouldEmit (op : BooleanOperationOpType) (inside : Bool) (processingB : Bool) : Bool :=
  match op with
  | .union => !inside
  | .intersection => inside
  | .difference => if processingB then inside else !inside
  | .symmetricDifference => !inside

/-- The emission truth table exactly as the spec writes it (section 4.5):
Union emits when outside the other region (both A- and B-derived);
Intersection emits when inside the other region; Difference emits an
A-derived segment when outside B and a B-derived segment when inside A;
SymmetricDifference emits when outside the other region.  This definition
follows the spec's words, for comparison against the source translation. -/
def specEmitTable (op : BooleanOperationOpType) (inside : Bool) (processingB : Bool) : Bool :=
  match op, processingB with
  | .union, false => !inside
  | .union, true => !inside
  | .intersection, false => inside
  | .intersection, true => inside
  | .difference, false => !inside
  | .difference, true => inside
  | .symmetricDifference, false => !inside
  | .symmetricDifference, true => !inside

/-- C1: for every boolean operation type, parity and region flag, the code's
`shouldEmit` decision coincides with the spec's emission truth table. -/
theorem c1_shouldEmit_matches_spec_table :
    ∀ (op : BooleanOperationOpType) (inside processingB : Bool),
      shouldEmit op inside processingB = specEmitTable op inside processingB := by
  intro op inside processingB
  cases op <;> cases inside <;> cases processingB <;> rfl

/-! ## Per-edge crossing walk (processRegion inner loop)

Translation of the emission loop of `BooleanOperation.processRegion`:

    currPt := edge.V0
    for _, nextPt := range intersections {
        if !currPt.ApproxEqual(nextPt) {
            if b.shouldEmit(inside, processingB) { builder.AddEdge(currPt, nextPt) }
        }
        inside = !inside
        currPt = nextPt
    }
    if !currPt.ApproxEqual(edge.V1) {
        if b.shouldEmit(inside, processingB) { builder.AddEdge(currPt, edge.V1) }
    }

The point type is abstract; `approxEq` stands for `Point.ApproxEqual`. -/

structure EdgeProcState (α : Type*) where
  inside : Bool
  currPt : α
  emitted : List (α × α)

/-- One iteration of the emission loop: maybe emit the sub-segment
`currPt → nextPt`, then toggle parity and advance the current point. -/
def processCrossing {α : Type*} (op : BooleanOperationOpType) (processingB : Bool)
    (approxEq : α → α → Bool) (s : EdgeProcState α) (nextPt : α) : EdgeProcState α :=
  let emitted :=
    if !approxEq s.currPt nextPt && shouldEmit op s.inside processingB then
      s.emitted ++ [(s.currPt, nextPt)]
    else s.emitted
  { inside := !s.inside, currPt := nextPt, emitted := emitted }

/-- The whole per-edge walk: fold the sorted crossing points, then handle the
final sub-segment ending at `v1` (which does not toggle parity). -/
def processEdge {α : Type*} (op : BooleanOperationOpType) (processingB : Bool)
    (approxEq : α → α → Bool) (v0 v1 : α) (inside0 : Bool) (pts : List α) :
    EdgeProcState α :=
  let s := pts.foldl (processCrossing op processingB approxEq) ⟨inside0, v0, []⟩
  { s with
    emitted :=
      if !approxEq s.currPt v1 && shouldEmit op s.inside processingB then
        s.emitted ++ [(s.currPt, v1)]
      else s.emitted }

theorem processCrossing_foldl_inside {α : Type*} (op : BooleanOperationOpType)
    (processingB : Bool) (approxEq : α → α → Bool) (pts : List α)
    (s : EdgeProcState α) :
    (pts.foldl (processCrossing op processingB approxEq) s).inside
      = (Bool.xor s.inside (decide (pts.length % 2 = 1))) := by
  induction pts generalizing s with
  | nil => simp
  | cons p ps ih =>
      rw [List.foldl_cons, ih]
      show Bool.xor (!s.inside) (decide (ps.length % 2 = 1))
          = Bool.xor s.inside (decide ((ps.length + 1) % 2 = 1))
      rcases Nat.mod_two_eq_zero_or_one ps.length with h | h
      · cases s.inside <;> simp [Nat.add_mod, h]
      · cases s.inside <;> simp [Nat.add_mod, h]

/-- C2: while the crossing processor walks one edge, parity toggles exactly
once per interior crossing and only there: after processing any prefix of
`k` sorted crossings the parity is the initial parity XOR `k % 2`, the final
segment (to `V1`) does not toggle, and after an even number of crossings the
parity is back to its initial value. -/
theorem c2_parity_toggles_once_per_crossing {α : Type*}
    (op : BooleanOperationOpType) (processingB : Bool)
    (approxEq : α → α → Bool) (v0 v1 : α) (inside0 : Bool) (pts : List α) :
    (∀ k ≤ pts.length,
        ((pts.take k).foldl (processCrossing op processingB approxEq)
            ⟨inside0, v0, []⟩).inside = Bool.xor inside0 (decide (k % 2 = 1)))
    ∧ (processEdge op processingB approxEq v0 v1 inside0 pts).inside
        = Bool.xor inside0 (decide (pts.length % 2 = 1))
    ∧ (pts.length % 2 = 0 →
        (processEdge op processingB approxEq v0 v1 inside0 pts).inside = inside0) := by
  refine ⟨?_, ?_, ?_⟩
  · intro k hk
    rw [processCrossing_foldl_inside]
    simp [List.length_take, Nat.min_eq_left hk]
  · show (pts.foldl (processCrossing op processingB approxEq) ⟨inside0, v0, []⟩).inside
        = Bool.xor inside0 (decide (pts.length % 2 = 1))
    exact processCrossing_foldl_inside op processingB approxEq pts _
  · intro h
    show (pts.foldl (processCrossing op processingB approxEq) ⟨inside0, v0, []⟩).inside
        = inside0
    rw [processCrossing_foldl_inside]
    simp [h]

/-- Witness for C2 at a concrete input: two crossings on an edge leave the
parity unchanged. -/
theorem c2_parity_toggles_once_per_crossing_witness :
    ((0 : ℤ) = 0 → True)
    ∧ (processEdge (α := ℤ) .union false (fun a b => a == b) 0 10 true [3, 7]).inside
        = true := by
  have h := c2_parity_toggles_once_per_crossing (α := ℤ) .union false
    (fun a b => a == b) 0 10 true [3, 7]
  exact ⟨fun _ => trivial, by simpa using h.2.2 (by decide)⟩

/-! ## Builder vertex snapping (builder.go, Build step 2)

Translation of the greedy site-assignment loop:

    for i, v := range b.inputVertices {
        snapped := b.opts.SnapFunction.SnapPoint(v)
        found := false
        for siteIdx, site := range sites {
            if sitesAreClose(snapped, site, b.opts.SnapFunction.SnapRadius()) {
                vMap[i] = int32(siteIdx); found = true; break
            }
        }
        if !found { vMap[i] = int32(len(sites)); sites = append(sites, snapped) }
    }

`sitesAreClose(a,b,r)` is `ChordAngleBetweenPoints(a,b) <= ChordAngleFromAngle(r)`
in the source; the chord angle is a monotonic surrogate for angular distance
(external primitive), so over the abstract rational distance `d` the
comparison is `d a b <= r`. -/

def sitesAreClose {α : Type*} (d : α → α → ℚ) (a b : α) (radius : ℚ) : Bool :=
  decide (d a b ≤ radius)

/-- The inner `for siteIdx, site := range sites` scan: index of the first
existing site close to the snapped point, if any. -/
def findSiteIdx {α : Type*} (d : α → α → ℚ) (radius : ℚ) (snapped : α) :
    List α → Option Nat
  | [] => none
  | s :: ss =>
      if sitesAreClose d snapped s radius then some 0
      else (findSiteIdx d radius snapped ss).map (· + 1)

/-- The outer loop over input vertices, carrying the accumulated `sites`
and `vMap`. -/
def assignSites {α : Type*} (d : α → α → ℚ) (snap : α → α) (radius : ℚ) :
    List α → List α → List Nat → List α × List Nat
  | [], sites, vMap => (sites, vMap)
  | v :: vs, sites, vMap =>
      match findSiteIdx d radius (snap v) sites with
      | some k => assignSites d snap radius vs sites (vMap ++ [k])
      | none => assignSites d snap radius vs (sites ++ [snap v]) (vMap ++ [sites.length])

/-- Site assignment as performed by `Builder.Build` step 2, starting from no
sites. Returns (sites, vertex-to-site map). -/
def buildSites {α : Type*} (d : α → α → ℚ) (snap : α → α) (radius : ℚ)
    (verts : List α) : List α × List Nat :=
  assignSites d snap radius verts [] []

theorem assignSites_cons_some {α : Type*} (d : α → α → ℚ) (snap : α → α)
    (radius : ℚ) (v : α) (vs sites : List α) (vMap : List Nat) (k : Nat)
    (h : findSiteIdx d radius (snap v) sites = some k) :
    assignSites d snap radius (v :: vs) sites vMap
      = assignSites d snap radius vs sites (vMap ++ [k]) := by
  conv_lhs => rw [assignSites]
  rw [h]

theorem assignSites_cons_none {α : Type*} (d : α → α → ℚ) (snap : α → α)
    (radius : ℚ) (v : α) (vs sites : List α) (vMap : List Nat)
    (h : findSiteIdx d radius (snap v) sites = none) :
    assignSites d snap radius (v :: vs) sites vMap
      = assignSites d snap radius vs (sites ++ [snap v]) (vMap ++ [sites.length]) := by
  conv_lhs => rw [assignSites]
  rw [h]

theorem findSiteIdx_spec {α : Type*} (d : α → α → ℚ) (radius : ℚ) (snapped x0 : α) :
    ∀ (sites : List α) (k : Nat), findSiteIdx d radius snapped sites = some k →
      k < sites.length ∧ d snapped (sites.getD k x0) ≤ radius := by
  intro sites
  induction sites with
  | nil => intro k h; simp [findSiteIdx] at h
  | cons s ss ih =>
      intro k h
      by_cases hc : sitesAreClose d snapped s radius
      · simp [findSiteIdx, hc] at h
        subst h
        simp [sitesAreClose] at hc
        simpa using hc
      · simp [findSiteIdx, hc] at h
        obtain ⟨m, hm, rfl⟩ := h
        obtain ⟨h1, h2⟩ := ih m hm
        constructor
        · simpa using Nat.succ_lt_succ h1
        · simpa using h2

theorem assignSites_fst_ext {α : Type*} (d : α → α → ℚ) (snap : α → α) (radius : ℚ) :
    ∀ (vs sites : List α) (vMap : List Nat),
      ∃ t, (assignSites d snap radius vs sites vMap).1 = sites ++ t := by
  intro vs
  induction vs with
  | nil => intro sites vMap; exact ⟨[], by simp [assignSites]⟩
  | cons v vs ih =>
      intro sites vMap
      cases h : findSiteIdx d radius (snap v) sites with
      | some k =>
          rw [assignSites_cons_some d snap radius v vs sites vMap k h]
          exact ih sites (vMap ++ [k])
      | none =>
          rw [assignSites_cons_none d snap radius v vs sites vMap h]
          obtain ⟨t, ht⟩ := ih (sites ++ [snap v]) (vMap ++ [sites.length])
          exact ⟨[snap v] ++ t, by simpa using ht⟩

theorem assignSites_snd_ext {α : Type*} (d : α → α → ℚ) (snap : α → α) (radius : ℚ) :
    ∀ (vs sites : List α) (vMap : List Nat),
      ∃ t, (assignSites d snap radius vs sites vMap).2 = vMap ++ t := by
  intro vs
  induction vs with
  | nil => intro sites vMap; exact ⟨[], by simp [assignSites]⟩
  | cons v vs ih =>
      intro sites vMap
      cases h : findSiteIdx d radius (snap v) sites with
      | some k =>
          rw [assignSites_cons_some d snap radius v vs sites vMap k h]
          obtain ⟨t, ht⟩ := ih sites (vMap ++ [k])
          exact ⟨[k] ++ t, by simpa using ht⟩
      | none =>
          rw [assignSites_cons_none d snap radius v vs sites vMap h]
          obtain ⟨t, ht⟩ := ih (sites ++ [snap v]) (vMap ++ [sites.length])
          exact ⟨[sites.length] ++ t, by simpa using ht⟩

theorem assignSites_dist_bound {α : Type*} (d : α → α → ℚ) (snap : α → α)
    (radius : ℚ) (x0 : α)
    (hnn : ∀ a b, 0 ≤ d a b)
    (htri : ∀ a b c, d a c ≤ d a b + d b c)
    (hsnap : ∀ p, d p (snap p) ≤ radius) :
    ∀ (vs sites : List α) (vMap : List Nat) (i : Nat), i < vs.length →
      ((assignSites d snap radius vs sites vMap).2.getD (vMap.length + i) 0)
          < (assignSites d snap radius vs sites vMap).1.length
      ∧ d (vs.getD i x0)
          ((assignSites d snap radius vs sites vMap).1.getD
            ((assignSites d snap radius vs sites vMap).2.getD (vMap.length + i) 0) x0)
          ≤ 2 * radius := by
  have hr0 : 0 ≤ radius := le_trans (hnn x0 (snap x0)) (hsnap x0)
  intro vs
  induction vs with
  | nil => intro sites vMap i hi; simp at hi
  | cons v vs ih =>
      intro sites vMap i hi
      cases hf : findSiteIdx d radius (snap v) sites with
      | some k =>
          rw [assignSites_cons_some d snap radius v vs sites vMap k hf]
          obtain ⟨hk, hdk⟩ := findSiteIdx_spec d radius (snap v) x0 sites k hf
          cases i with
          | zero =>
              obtain ⟨ts, hts⟩ := assignSites_fst_ext d snap radius vs sites (vMap ++ [k])
              obtain ⟨tm, htm⟩ := assignSites_snd_ext d snap radius vs sites (vMap ++ [k])
              have hgm : (assignSites d snap radius vs sites (vMap ++ [k])).2.getD
                  (vMap.length + 0) 0 = k := by
                rw [Nat.add_zero, htm, List.append_assoc,
                  List.getD_append_right vMap ([k] ++ tm) 0 vMap.length (le_refl _)]
                simp
              rw [hgm, hts]
              refine ⟨by simpa using Nat.lt_of_lt_of_le hk (by simp), ?_⟩
              have hgs : (sites ++ ts).getD k x0 = sites.getD k x0 :=
                List.getD_append _ _ _ _ (by omega)
              rw [hgs]
              calc d v (sites.getD k x0)
                  ≤ d v (snap v) + d (snap v) (sites.getD k x0) := htri _ _ _
                _ ≤ radius + radius := add_le_add (hsnap v) hdk
                _ = 2 * radius := by ring
          | succ j =>
              have hj : j < vs.length := by simpa using Nat.lt_of_succ_lt_succ hi
              have h2 := ih sites (vMap ++ [k]) j hj
              have hlen : vMap.length + (j + 1) = (vMap ++ [k]).length + j := by
                simp only [List.length_append, List.length_cons, List.length_nil]
                omega
              rw [hlen]
              simpa using h2
      | none =>
          rw [assignSites_cons_none d snap radius v vs sites vMap hf]
          cases i with
          | zero =>
              obtain ⟨ts, hts⟩ :=
                assignSites_fst_ext d snap radius vs (sites ++ [snap v]) (vMap ++ [sites.length])
              obtain ⟨tm, htm⟩ :=
                assignSites_snd_ext d snap radius vs (sites ++ [snap v]) (vMap ++ [sites.length])
              have hgm : (assignSites d snap radius vs (sites ++ [snap v])
                  (vMap ++ [sites.length])).2.getD (vMap.length + 0) 0 = sites.length := by
                rw [Nat.add_zero, htm, List.append_assoc,
                  List.getD_append_right vMap ([sites.length] ++ tm) 0 vMap.length (le_refl _)]
                simp
              rw [hgm, hts]
              constructor
              · simp only [List.length_append, List.length_cons, List.length_nil]
                omega
              · have hgs : ((sites ++ [snap v]) ++ ts).getD sites.length x0 = snap v := by
                  rw [List.append_assoc,
                    List.getD_append_right sites ([snap v] ++ ts) x0 sites.length (le_refl _)]
                  simp
                rw [hgs]
                calc d v (snap v) ≤ radius := hsnap v
                  _ ≤ 2 * radius := by linarith
          | succ j =>
              have hj : j < vs.length := by simpa using Nat.lt_of_succ_lt_succ hi
              have h2 := ih (sites ++ [snap v]) (vMap ++ [sites.length]) j hj
              have hlen : vMap.length + (j + 1) = (vMap ++ [sites.length]).length + j := by
                simp only [List.length_append, List.length_cons, List.length_nil]
                omega
              rw [hlen]
              simpa using h2

/-- A concrete distance on the rationals (models distance along one geodesic):
it is nonnegative, symmetric and satisfies the triangle inequality. -/
def lineDist (a b : ℚ) : ℚ := if a ≤ b then b - a else a - b

theorem lineDist_eq_abs (a b : ℚ) : lineDist a b = |a - b| := by
  unfold lineDist
  split_ifs with h
  · rw [abs_sub_comm, abs_of_nonneg (by linarith)]
  · rw [abs_of_pos (by linarith)]

/-- A concrete snap function: moves the point 2 to the point 1, fixes every
other point.  For radius 1 it meets the SnapFunction contract
`|p - SnapPoint(p)| <= SnapRadius()` at every point of the space. -/
def exSnap (p : ℚ) : ℚ := if p = 2 then 1 else p

/-- C3 counterexample: a SnapFunction meeting the contract
`distance(p, SnapPoint(p)) <= SnapRadius()` (radius 1) under which
`Builder.Build` maps the input vertex 2 to the site 0 at distance 2 from it,
exceeding the snap radius: the claimed bound `distance(v, site(v)) <=
SnapRadius()` fails.  (The vertex 0 creates site 0; vertex 2 snaps to 1,
which is within radius 1 of site 0, so it is greedily mapped there.) -/
theorem c3_snap_radius_counterexample :
    (∀ p : ℚ, lineDist p (exSnap p) ≤ 1)
    ∧ (buildSites lineDist exSnap 1 [0, 2]).1 = [0]
    ∧ (buildSites lineDist exSnap 1 [0, 2]).2 = [0, 0]
    ∧ ¬ (lineDist (([0, 2] : List ℚ).getD 1 0)
          ((buildSites lineDist exSnap 1 [0, 2]).1.getD
            ((buildSites lineDist exSnap 1 [0, 2]).2.getD 1 0) 0) ≤ 1) := by
  refine ⟨?_, ?_, ?_, ?_⟩
  · intro p
    by_cases h : p = 2
    · subst h; norm_num [lineDist_eq_abs, exSnap]
    · simp [lineDist_eq_abs, exSnap, h]
  · norm_num [buildSites, assignSites, findSiteIdx, sitesAreClose, lineDist, exSnap]
  · norm_num [buildSites, assignSites, findSiteIdx, sitesAreClose, lineDist, exSnap]
  · norm_num [buildSites, assignSites, findSiteIdx, sitesAreClose, lineDist, exSnap]

/-- C3 (amended): under the SnapFunction contract, every input vertex is
mapped by `Builder.Build` to a site within distance `2 * SnapRadius()` (not
`SnapRadius()`): the vertex moves at most the snap radius to its snapped
location, which in turn is matched to a site at most the snap radius away. -/
theorem c3_snap_distance_at_most_twice_radius {α : Type*} (d : α → α → ℚ)
    (snap : α → α) (radius : ℚ) (x0 : α)
    (hnn : ∀ a b, 0 ≤ d a b)
    (htri : ∀ a b c, d a c ≤ d a b + d b c)
    (hsnap : ∀ p, d p (snap p) ≤ radius)
    (verts : List α) (i : Nat) (hi : i < verts.length) :
    ((buildSites d snap radius verts).2.getD i 0)
        < (buildSites d snap radius verts).1.length
    ∧ d (verts.getD i x0)
        ((buildSites d snap radius verts).1.getD
          ((buildSites d snap radius verts).2.getD i 0) x0)
        ≤ 2 * radius := by
  have := assignSites_dist_bound d snap radius x0 hnn htri hsnap verts [] [] i hi
  simpa [buildSites] using this

/-- Witness for the amended C3 at a concrete input: the counterexample
configuration satisfies the hypotheses, and vertex 2 lands within twice the
radius. -/
theorem c3_snap_distance_at_most_twice_radius_witness :
    (1 : Nat) < ([(0 : ℚ), 2] : List ℚ).length
    ∧ ((buildSites lineDist exSnap 1 [0, 2]).2.getD 1 0)
        < (buildSites lineDist exSnap 1 [0, 2]).1.length
    ∧ lineDist (([0, 2] : List ℚ).getD 1 0)
        ((buildSites lineDist exSnap 1 [0, 2]).1.getD
          ((buildSites lineDist exSnap 1 [0, 2]).2.getD 1 0) 0)
        ≤ 2 * 1 := by
  refine ⟨by decide, ?_⟩
  refine c3_snap_distance_at_most_twice_radius lineDist exSnap 1 0
    (fun a b => by rw [lineDist_eq_abs]; exact abs_nonneg _) (fun a b c => ?_)
    (fun p => ?_) [0, 2] 1 (by decide)
  · rw [lineDist_eq_abs, lineDist_eq_abs, lineDist_eq_abs]
    calc |a - c| = |(a - b) + (b - c)| := by ring_nf
      _ ≤ |a - b| + |b - c| := abs_add _ _
  · by_cases h : p = 2
    · subst h; norm_num [lineDist_eq_abs, exSnap]
    · simp [lineDist_eq_abs, exSnap, h]

/-! ## Builder graph (builder_graph.go)

Translation of `BuilderGraph`, `NewBuilderGraph`, `computeAdjacency` and
`GetOutEdges`:

    func (g *BuilderGraph) computeAdjacency() {
        g.outEdges = make([][]int32, len(g.Vertices))
        for i, e := range g.Edges {
            g.outEdges[e.Src] = append(g.outEdges[e.Src], int32(i))
        }
    }
    func (g *BuilderGraph) GetOutEdges(v int32) []int32 {
        if int(v) >= len(g.outEdges) { return nil }
        return g.outEdges[v]
    }
-/

structure BuilderGraphEdge where
  src : Nat
  dst : Nat
  inputIDs : List Nat
  deriving DecidableEq, Repr

/-- Defaults used by total list indexing in the embedding; Go indexing is
in-bounds wherever the theorems apply (well-formedness hypotheses). -/
def dfltEdge : BuilderGraphEdge := ⟨0, 0, []⟩

inductive BuilderEdgeType where
  | directed
  | undirected
  deriving DecidableEq, Repr

inductive BuilderDegenerateEdges where
  | keep
  | discard
  | discardExcess
  deriving DecidableEq, Repr

inductive BuilderDuplicateEdges where
  | keep
  | merge
  deriving DecidableEq, Repr

inductive BuilderSiblingPairs where
  | keep
  | discard
  | discardExcess
  | require
  | create
  deriving DecidableEq, Repr

structure BuilderGraphOptions where
  edgeType : BuilderEdgeType
  degenerateEdges : BuilderDegenerateEdges
  duplicateEdges : BuilderDuplicateEdges
  siblingPairs : BuilderSiblingPairs
  deriving DecidableEq, Repr

structure BuilderGraph (α : Type*) where
  options : BuilderGraphOptions
  vertices : List α
  edges : List BuilderGraphEdge
  outEdges : List (List Nat)

/-- One step of the adjacency loop body:
`g.outEdges[e.Src] = append(g.outEdges[e.Src], int32(i))`. -/
def adjAppend (buckets : List (List Nat)) (src i : Nat) : List (List Nat) :=
  buckets.set src (buckets.getD src [] ++ [i])

/-- The `for i, e := range g.Edges` loop of `computeAdjacency`, with `i` the
running edge index. -/
def computeAdjacencyAux (buckets : List (List Nat)) (i : Nat) :
    List BuilderGraphEdge → List (List Nat)
  | [] => buckets
  | e :: es => computeAdjacencyAux (adjAppend buckets e.src i) (i + 1) es

/-- `computeAdjacency`: start from one empty bucket per vertex. -/
def computeAdjacency (numVertices : Nat) (edges : List BuilderGraphEdge) :
    List (List Nat) :=
  computeAdjacencyAux (List.replicate numVertices []) 0 edges

/-- `NewBuilderGraph`: stores the inputs and eagerly computes adjacency. -/
def newBuilderGraph {α : Type*} (opts : BuilderGraphOptions) (vertices : List α)
    (edges : List BuilderGraphEdge) : BuilderGraph α :=
  { options := opts, vertices := vertices, edges := edges,
    outEdges := computeAdjacency vertices.length edges }

/-- `GetOutEdges`: nil for an index at or beyond the bucket count, else the
precomputed bucket. -/
def getOutEdges {α : Type*} (g : BuilderGraph α) (v : Nat) : List Nat :=
  if g.outEdges.length ≤ v then [] else g.outEdges.getD v []

theorem computeAdjacencyAux_length (es : List BuilderGraphEdge) :
    ∀ (buckets : List (List Nat)) (i : Nat),
      (computeAdjacencyAux buckets i es).length = buckets.length := by
  induction es with
  | nil => intro buckets i; rfl
  | cons e es ih =>
      intro buckets i
      rw [computeAdjacencyAux, ih]
      simp [adjAppend]

theorem computeAdjacencyAux_getD (es : List BuilderGraphEdge) :
    ∀ (buckets : List (List Nat)) (i v : Nat), v < buckets.length →
      (computeAdjacencyAux buckets i es).getD v []
        = buckets.getD v []
            ++ (List.range es.length).filterMap
                (fun k => if (es.getD k dfltEdge).src = v then some (i + k) else none) := by
  induction es with
  | nil => intro buckets i v hv; simp [computeAdjacencyAux]
  | cons e es ih =>
      intro buckets i v hv
      have hlen2 : v < (adjAppend buckets e.src i).length := by
        simpa [adjAppend] using hv
      rw [computeAdjacencyAux, ih (adjAppend buckets e.src i) (i + 1) v hlen2]
      have htail : (List.range es.length).filterMap
            (fun k => if (es.getD k dfltEdge).src = v then some (i + 1 + k) else none)
          = (List.range es.length).filterMap
            (fun k =>
              if ((e :: es).getD (k + 1) dfltEdge).src = v then some (i + (k + 1)) else none) := by
        apply List.filterMap_congr
        intro k hk
        simp only [List.getD_cons_succ]
        split
        · congr 1
          omega
        · rfl
      have hrhs : (List.range (e :: es).length).filterMap
            (fun k => if ((e :: es).getD k dfltEdge).src = v then some (i + k) else none)
          = (if e.src = v then [i] else [])
            ++ (List.range es.length).filterMap
              (fun k =>
                if ((e :: es).getD (k + 1) dfltEdge).src = v then some (i + (k + 1)) else none) := by
        rw [List.length_cons, List.range_succ_eq_map, List.filterMap_cons, List.filterMap_map]
        by_cases hsrc : e.src = v
        · simp [hsrc, Function.comp_def]
        · simp [hsrc, Function.comp_def]
      rw [hrhs, ← htail]
      by_cases hsrc : e.src = v
      · have hset : (adjAppend buckets e.src i).getD v [] = buckets.getD v [] ++ [i] := by
          unfold adjAppend
          rw [hsrc, List.getD_eq_getElem _ _ (by simpa using hv)]
          simp [List.getElem_set_self]
        rw [hset, if_pos hsrc, List.append_assoc, List.singleton_append]
      · have hset : (adjAppend buckets e.src i).getD v [] = buckets.getD v [] := by
          unfold adjAppend
          by_cases hlt : e.src < buckets.length
          · rw [List.getD_eq_getElem _ _ (by simpa using hv), List.getElem_set_ne hsrc,
              List.getD_eq_getElem _ _ hv]
          · rw [List.set_eq_of_length_le (by omega)]
        rw [hset, if_neg hsrc, List.nil_append]

theorem filterMap_guard_eq_filter (p : Nat → Bool) (l : List Nat) :
    l.filterMap (fun k => if p k then some k else none) = l.filter p := by
  induction l with
  | nil => rfl
  | cons x xs ih =>
      rw [List.filterMap_cons, List.filter_cons]
      by_cases h : p x
      · simp [h, ih]
      · simp [h, ih]

/-- C10: `GetOutEdges` on a graph built by `NewBuilderGraph` returns the empty
(nil) list for every vertex index at or beyond `NumVertices()` (no
out-of-bounds failure), and for every in-range vertex it returns exactly the
indices of the edges whose source is that vertex, in increasing edge-index
order. -/
theorem c10_getOutEdges_spec {α : Type*} (opts : BuilderGraphOptions)
    (vertices : List α) (edges : List BuilderGraphEdge)
    (hwf : ∀ e ∈ edges, e.src < vertices.length) :
    (∀ v, vertices.length ≤ v → getOutEdges (newBuilderGraph opts vertices edges) v = [])
    ∧ (∀ v < vertices.length,
        getOutEdges (newBuilderGraph opts vertices edges) v
          = (List.range edges.length).filter
              (fun i => decide ((edges.getD i dfltEdge).src = v)))
    ∧ (∀ v, List.Pairwise (· < ·)
        (getOutEdges (newBuilderGraph opts vertices edges) v)) := by
  have hlen : (computeAdjacency vertices.length edges).length = vertices.length := by
    rw [computeAdjacency, computeAdjacencyAux_length]
    simp
  have hnil : ∀ v, vertices.length ≤ v →
      getOutEdges (newBuilderGraph opts vertices edges) v = [] := by
    intro v hv
    unfold getOutEdges newBuilderGraph
    simp only
    rw [hlen, if_pos hv]
  have hbucket : ∀ v < vertices.length,
      getOutEdges (newBuilderGraph opts vertices edges) v
        = (List.range edges.length).filter
            (fun i => decide ((edges.getD i dfltEdge).src = v)) := by
    intro v hv
    have hv2 : v < (List.replicate vertices.length ([] : List Nat)).length := by simpa using hv
    unfold getOutEdges newBuilderGraph
    simp only
    rw [hlen, if_neg (by omega)]
    rw [computeAdjacency, computeAdjacencyAux_getD edges _ 0 v hv2]
    rw [List.getD_eq_getElem _ _ hv2, List.getElem_replicate, List.nil_append,
      ← filterMap_guard_eq_filter]
    apply List.filterMap_congr
    intro k hk
    by_cases h : (edges.getD k dfltEdge).src = v
    · simp [h]
    · simp [h]
  refine ⟨hnil, hbucket, ?_⟩
  intro v
  by_cases hv : v < vertices.length
  · rw [hbucket v hv]
    exact List.Pairwise.sublist (List.filter_sublist _) (List.pairwise_lt_range _)
  · rw [hnil v (by omega)]
    exact List.Pairwise.nil

/-- Witness for C10 at a concrete graph: two vertices, two edges out of
vertex 0; vertex 5 is out of range and yields nil. -/
theorem c10_getOutEdges_spec_witness :
    (∀ e ∈ [(⟨0, 1, [0]⟩ : BuilderGraphEdge), ⟨0, 1, [1]⟩], e.src < 2)
    ∧ (getOutEdges (newBuilderGraph (α := Unit)
        ⟨.directed, .discard, .keep, .discard⟩ [(), ()]
        [⟨0, 1, [0]⟩, ⟨0, 1, [1]⟩]) 5 = [])
    ∧ (getOutEdges (newBuilderGraph (α := Unit)
        ⟨.directed, .discard, .keep, .discard⟩ [(), ()]
        [⟨0, 1, [0]⟩, ⟨0, 1, [1]⟩]) 0
          = (List.range 2).filter
              (fun i => decide ((([⟨0, 1, [0]⟩, ⟨0, 1, [1]⟩] :
                List BuilderGraphEdge).getD i dfltEdge).src = 0))) := by
  have hwf : ∀ e ∈ [(⟨0, 1, [0]⟩ : BuilderGraphEdge), ⟨0, 1, [1]⟩], e.src < 2 := by decide
  have h := c10_getOutEdges_spec (α := Unit) ⟨.directed, .discard, .keep, .discard⟩
    [(), ()] [⟨0, 1, [0]⟩, ⟨0, 1, [1]⟩] hwf
  refine ⟨hwf, ?_, ?_⟩
  · exact h.1 5 (by simp)
  · exact (h.2.1 0 (by simp))

/-! ## Builder pipeline (builder.go)

Translation of the `Builder` state, `AddEdge`, `StartLayer` and the steps of
`Build()`:

    func (b *Builder) AddEdge(v0, v1 Point) {
        b.inputVertices = append(b.inputVertices, v0, v1)
        idx := int32(len(b.inputVertices))
        b.inputEdges = append(b.inputEdges, builderInputEdge{idx - 2, idx - 1})
    }

Step 3 (graph construction):

    for inputID, e := range b.inputEdges {
        src := vMap[e.v0]; dst := vMap[e.v1]
        if src == dst { continue }
        edges = append(edges, BuilderGraphEdge{Src: src, Dst: dst, InputIDs: []int32{int32(inputID)}})
    }

Step 4 (layer dispatch):

    for _, layer := range b.layers {
        g := NewBuilderGraph(layer.GraphOptions(), sites, edges)
        if err := layer.Build(g); err != nil { return err }
    }
    return nil

A layer owns its own output (type σ below): a successful `Build(g)` returns
it, an error aborts the whole pipeline.  `resolveIntersections` in this
source constructs a temporary index but modifies neither `inputVertices` nor
`inputEdges` (edge splitting is explicitly left unimplemented), so it is the
identity on the builder state. -/

/-- Builder graph construction (`Build()` step 3); the Go locals `src` and
`dst` (`vMap[e.v0]`, `vMap[e.v1]`) are inlined. -/
def buildGraphEdges (vMap : List Nat) (inputEdges : List (Nat × Nat)) :
    List BuilderGraphEdge :=
  (List.range inputEdges.length).filterMap (fun inputID =>
    if vMap.getD (inputEdges.getD inputID (0, 0)).1 0
        = vMap.getD (inputEdges.getD inputID (0, 0)).2 0 then none
    else some ⟨vMap.getD (inputEdges.getD inputID (0, 0)).1 0,
      vMap.getD (inputEdges.getD inputID (0, 0)).2 0, [inputID]⟩)

structure BuilderLayer (α ε σ : Type*) where
  graphOptions : BuilderGraphOptions
  build : BuilderGraph α → Except ε σ

structure Builder (α ε σ : Type*) where
  layers : List (BuilderLayer α ε σ)
  inputVertices : List α
  inputEdges : List (Nat × Nat)

def emptyBuilder {α ε σ : Type*} : Builder α ε σ := ⟨[], [], []⟩

/-- `Builder.AddEdge`: append both endpoints and record the edge by index. -/
def builderAddEdge {α ε σ : Type*} (b : Builder α ε σ) (v0 v1 : α) : Builder α ε σ :=
  { b with
    inputVertices := b.inputVertices ++ [v0, v1],
    inputEdges := b.inputEdges ++ [(b.inputVertices.length, b.inputVertices.length + 1)] }

/-- `Builder.StartLayer`. -/
def builderStartLayer {α ε σ : Type*} (b : Builder α ε σ) (l : BuilderLayer α ε σ) :
    Builder α ε σ :=
  { b with layers := b.layers ++ [l] }

/-- `Builder.resolveIntersections`: in this source it finds crossings in a
temporary index but performs no splitting and no state mutation, so it is the
identity on the builder. -/
def resolveIntersections {α ε σ : Type*} (b : Builder α ε σ) : Builder α ε σ := b

/-- `Build()` step 4: invoke each layer on its own freshly constructed graph
(same sites and edges), abort on the first error.  Returns the outputs of the
layers that ran successfully together with the first error, if any. -/
def dispatchLayers {α ε σ : Type*} (sites : List α) (gEdges : List BuilderGraphEdge) :
    List (BuilderLayer α ε σ) → List σ × Option ε
  | [] => ([], none)
  | l :: ls =>
      match l.build (newBuilderGraph l.graphOptions sites gEdges) with
      | .error e => ([], some e)
      | .ok out =>
          let r := dispatchLayers sites gEdges ls
          (out :: r.1, r.2)

/-- `Builder.Build()`: crossing resolution (a no-op in this source), site
assignment, graph construction, layer dispatch. -/
def builderBuild {α ε σ : Type*} (d : α → α → ℚ) (snap : α → α) (radius : ℚ)
    (splitCrossingEdges : Bool) (b : Builder α ε σ) : List σ × Option ε :=
  let b := if splitCrossingEdges then resolveIntersections b else b
  let sv := buildSites d snap radius b.inputVertices
  let gEdges := buildGraphEdges sv.2 b.inputEdges
  dispatchLayers sv.1 gEdges b.layers

theorem buildGraphEdges_mem {vMap : List Nat} {inputEdges : List (Nat × Nat)}
    {ge : BuilderGraphEdge} (h : ge ∈ buildGraphEdges vMap inputEdges) :
    ∃ i < inputEdges.length, ge.inputIDs = [i]
      ∧ ge.src = vMap.getD (inputEdges.getD i (0, 0)).1 0
      ∧ ge.dst = vMap.getD (inputEdges.getD i (0, 0)).2 0
      ∧ ge.src ≠ ge.dst := by
  unfold buildGraphEdges at h
  rw [List.mem_filterMap] at h
  obtain ⟨i, hi, hfi⟩ := h
  rw [List.mem_range] at hi
  refine ⟨i, hi, ?_⟩
  by_cases hsd : vMap.getD (inputEdges.getD i (0, 0)).1 0
      = vMap.getD (inputEdges.getD i (0, 0)).2 0
  · rw [if_pos hsd] at hfi
    exact Option.noConfusion hfi
  · rw [if_neg hsd] at hfi
    injection hfi with h2
    subst h2
    exact ⟨rfl, rfl, rfl, hsd⟩

/-- C6: in `Builder.Build()` step 3, an input edge produces a graph edge iff
its endpoints map to distinct sites — edges collapsing to one site are
dropped unconditionally — every surviving edge records exactly its
originating input-edge id (with the mapped endpoints), and the edge list of
the graph handed to a layer does not depend on the layer's `GraphOptions`
(in particular not on `DegenerateEdges`). -/
theorem c6_degenerate_edges_dropped_unconditionally {α : Type*}
    (vMap : List Nat) (inputEdges : List (Nat × Nat)) :
    (∀ ge ∈ buildGraphEdges vMap inputEdges,
        ∃ i < inputEdges.length, ge.inputIDs = [i]
          ∧ ge.src = vMap.getD (inputEdges.getD i (0, 0)).1 0
          ∧ ge.dst = vMap.getD (inputEdges.getD i (0, 0)).2 0
          ∧ ge.src ≠ ge.dst)
    ∧ (∀ i < inputEdges.length,
        vMap.getD (inputEdges.getD i (0, 0)).1 0 ≠ vMap.getD (inputEdges.getD i (0, 0)).2 0 →
          ∃ ge ∈ buildGraphEdges vMap inputEdges, ge.inputIDs = [i])
    ∧ (∀ i < inputEdges.length,
        vMap.getD (inputEdges.getD i (0, 0)).1 0 = vMap.getD (inputEdges.getD i (0, 0)).2 0 →
          ¬ ∃ ge ∈ buildGraphEdges vMap inputEdges, ge.inputIDs = [i])
    ∧ (∀ (opts opts2 : BuilderGraphOptions) (sites : List α),
        (newBuilderGraph opts sites (buildGraphEdges vMap inputEdges)).edges
          = (newBuilderGraph opts2 sites (buildGraphEdges vMap inputEdges)).edges) := by
  refine ⟨fun ge h => buildGraphEdges_mem h, ?_, ?_, fun _ _ _ => rfl⟩
  · intro i hi hne
    refine ⟨⟨vMap.getD (inputEdges.getD i (0, 0)).1 0,
      vMap.getD (inputEdges.getD i (0, 0)).2 0, [i]⟩, ?_, rfl⟩
    unfold buildGraphEdges
    rw [List.mem_filterMap]
    exact ⟨i, List.mem_range.mpr hi, by rw [if_neg hne]⟩
  · intro i hi heq hex
    obtain ⟨ge, hmem, hids⟩ := hex
    obtain ⟨j, hj, hids2, hsrc, hdst, hne⟩ := buildGraphEdges_mem hmem
    rw [hids] at hids2
    cases hids2
    exact hne (by rw [hsrc, hdst, heq])

/-- Witness for C6 at a concrete input: vertex map sending both endpoints of
input edge 0 to site 0 (dropped) and the endpoints of input edge 1 to sites
0 and 1 (kept, with provenance [1]). -/
theorem c6_degenerate_edges_dropped_unconditionally_witness :
    ((1 : Nat) < ([(0, 1), (2, 3)] : List (Nat × Nat)).length)
    ∧ (buildGraphEdges [0, 0, 0, 1] [(0, 1), (2, 3)] = [⟨0, 1, [1]⟩])
    ∧ (∃ ge ∈ buildGraphEdges [0, 0, 0, 1] [(0, 1), (2, 3)], ge.inputIDs = [1])
    ∧ ¬ (∃ ge ∈ buildGraphEdges [0, 0, 0, 1] [(0, 1), (2, 3)], ge.inputIDs = [0]) := by
  have h := c6_degenerate_edges_dropped_unconditionally (α := Unit) [0, 0, 0, 1] [(0, 1), (2, 3)]
  refine ⟨by decide, by decide, ?_, ?_⟩
  · exact h.2.1 1 (by decide) (by decide)
  · exact h.2.2.1 0 (by decide) (by decide)

theorem dispatchLayers_cons_err {α ε σ : Type*} (sites : List α)
    (gEdges : List BuilderGraphEdge) (l : BuilderLayer α ε σ)
    (ls : List (BuilderLayer α ε σ)) (e : ε)
    (h : l.build (newBuilderGraph l.graphOptions sites gEdges) = .error e) :
    dispatchLayers sites gEdges (l :: ls) = ([], some e) := by
  conv_lhs => rw [dispatchLayers]
  rw [h]

theorem dispatchLayers_cons_ok {α ε σ : Type*} (sites : List α)
    (gEdges : List BuilderGraphEdge) (l : BuilderLayer α ε σ)
    (ls : List (BuilderLayer α ε σ)) (out : σ)
    (h : l.build (newBuilderGraph l.graphOptions sites gEdges) = .ok out) :
    dispatchLayers sites gEdges (l :: ls)
      = (out :: (dispatchLayers sites gEdges ls).1, (dispatchLayers sites gEdges ls).2) := by
  conv_lhs => rw [dispatchLayers]
  rw [h]

theorem dispatchLayers_all_ok {α ε σ : Type*} (sites : List α)
    (gEdges : List BuilderGraphEdge) :
    ∀ (layers : List (BuilderLayer α ε σ)),
      (∀ l ∈ layers, ∃ out, l.build (newBuilderGraph l.graphOptions sites gEdges) = .ok out) →
      dispatchLayers sites gEdges layers
        = (layers.filterMap
            (fun l => (l.build (newBuilderGraph l.graphOptions sites gEdges)).toOption),
           none) := by
  intro layers
  induction layers with
  | nil => intro hok; rfl
  | cons l ls ih =>
      intro hok
      obtain ⟨out, hout⟩ := hok l (by simp)
      rw [dispatchLayers_cons_ok sites gEdges l ls out hout]
      rw [ih (fun l2 hl2 => hok l2 (by simp [hl2]))]
      simp [List.filterMap_cons, hout, Except.toOption]

theorem dispatchLayers_first_error {α ε σ : Type*} (sites : List α)
    (gEdges : List BuilderGraphEdge) :
    ∀ (pre : List (BuilderLayer α ε σ)) (f : BuilderLayer α ε σ)
      (rest : List (BuilderLayer α ε σ)) (e : ε),
      (∀ l ∈ pre, ∃ out, l.build (newBuilderGraph l.graphOptions sites gEdges) = .ok out) →
      f.build (newBuilderGraph f.graphOptions sites gEdges) = .error e →
      dispatchLayers sites gEdges (pre ++ f :: rest)
        = (pre.filterMap
            (fun l => (l.build (newBuilderGraph l.graphOptions sites gEdges)).toOption),
           some e) := by
  intro pre
  induction pre with
  | nil =>
      intro f rest e hok herr
      rw [List.nil_append, dispatchLayers_cons_err sites gEdges f rest e herr]
      rfl
  | cons l ls ih =>
      intro f rest e hok herr
      obtain ⟨out, hout⟩ := hok l (by simp)
      rw [List.cons_append, dispatchLayers_cons_ok sites gEdges l (ls ++ f :: rest) out hout]
      rw [ih f rest e (fun l2 hl2 => hok l2 (by simp [hl2])) herr]
      simp [List.filterMap_cons, hout, Except.toOption]

/-- C8: `Builder.Build()` invokes the layers in registration order and
propagates errors as the claim states: if every layer succeeds the build
reports no error (and every layer has run, its output collected in order);
if some layer fails, with all layers before it succeeding, the build returns
exactly that first error, the outputs of the already-succeeded layers stand
(no rollback), and the layers after the failing one are never invoked — the
result is independent of what they are. -/
theorem c8_build_layer_error_propagation {α ε σ : Type*} (d : α → α → ℚ)
    (snap : α → α) (radius : ℚ) (split : Bool)
    (layers : List (BuilderLayer α ε σ)) (verts : List α)
    (inputEdges : List (Nat × Nat)) :
    (((∀ l ∈ layers, ∃ out,
        l.build (newBuilderGraph l.graphOptions
          (buildSites d snap radius verts).1
          (buildGraphEdges (buildSites d snap radius verts).2 inputEdges)) = .ok out) →
      builderBuild d snap radius split ⟨layers, verts, inputEdges⟩
        = (layers.filterMap
            (fun l => (l.build (newBuilderGraph l.graphOptions
              (buildSites d snap radius verts).1
              (buildGraphEdges (buildSites d snap radius verts).2 inputEdges))).toOption),
           none)))
    ∧ (∀ (pre : List (BuilderLayer α ε σ)) (f : BuilderLayer α ε σ)
        (rest : List (BuilderLayer α ε σ)) (e : ε), layers = pre ++ f :: rest →
        (∀ l ∈ pre, ∃ out,
          l.build (newBuilderGraph l.graphOptions
            (buildSites d snap radius verts).1
            (buildGraphEdges (buildSites d snap radius verts).2 inputEdges)) = .ok out) →
        f.build (newBuilderGraph f.graphOptions
          (buildSites d snap radius verts).1
          (buildGraphEdges (buildSites d snap radius verts).2 inputEdges)) = .error e →
        (builderBuild d snap radius split ⟨layers, verts, inputEdges⟩
          = (pre.filterMap
              (fun l => (l.build (newBuilderGraph l.graphOptions
                (buildSites d snap radius verts).1
                (buildGraphEdges (buildSites d snap radius verts).2 inputEdges))).toOption),
             some e)
          ∧ ∀ (rest2 : List (BuilderLayer α ε σ)),
              builderBuild d snap radius split ⟨pre ++ f :: rest2, verts, inputEdges⟩
                = builderBuild d snap radius split ⟨layers, verts, inputEdges⟩)) := by
  have hb : ∀ (ls : List (BuilderLayer α ε σ)),
      builderBuild d snap radius split ⟨ls, verts, inputEdges⟩
        = dispatchLayers (buildSites d snap radius verts).1
            (buildGraphEdges (buildSites d snap radius verts).2 inputEdges) ls := by
    intro ls
    unfold builderBuild resolveIntersections
    cases split <;> rfl
  constructor
  · intro hok
    rw [hb]
    exact dispatchLayers_all_ok _ _ layers hok
  · intro pre f rest e hsplit hok herr
    constructor
    · rw [hsplit, hb]
      exact dispatchLayers_first_error _ _ pre f rest e hok herr
    · intro rest2
      rw [hsplit, hb, hb]
      rw [dispatchLayers_first_error _ _ pre f rest e hok herr,
        dispatchLayers_first_error _ _ pre f rest2 e hok herr]

/-- Witness for C8 at a concrete instance: two layers, the second failing;
the first layer's output stands, the error of the second is returned, and a
third layer appended after the failure does not change the result. -/
theorem c8_build_layer_error_propagation_witness :
    builderBuild (α := ℚ) (ε := Nat) (σ := Nat) lineDist exSnap 1 true
      ⟨[⟨⟨.directed, .discard, .keep, .discard⟩, fun g => .ok g.vertices.length⟩,
        ⟨⟨.directed, .discard, .keep, .discard⟩, fun _ => .error 7⟩], [0, 2], []⟩
      = ([1], some 7) := by
  have h := (c8_build_layer_error_propagation (α := ℚ) (ε := Nat) (σ := Nat)
    lineDist exSnap 1 true
    [⟨⟨.directed, .discard, .keep, .discard⟩, fun g => .ok g.vertices.length⟩,
     ⟨⟨.directed, .discard, .keep, .discard⟩, fun _ => .error 7⟩] [0, 2] []).2
    [⟨⟨.directed, .discard, .keep, .discard⟩, fun g => .ok g.vertices.length⟩]
    ⟨⟨.directed, .discard, .keep, .discard⟩, fun _ => .error 7⟩ [] 7 rfl
    (by
      intro l hl
      rw [List.mem_singleton] at hl
      subst hl
      exact ⟨_, rfl⟩)
    rfl
  rw [h.1]
  have hsites : (buildSites lineDist exSnap 1 [(0 : ℚ), 2]).1 = [0] := by
    norm_num [buildSites, assignSites, findSiteIdx, sitesAreClose, lineDist, exSnap]
  simp [List.filterMap_cons, Except.toOption, newBuilderGraph, hsites, buildGraphEdges]

/-! ## Polygon layer (PolygonLayer.Build)

Translation of the greedy loop extraction:

    used := make([]bool, len(g.Edges))
    for i := 0; i < len(g.Edges); i++ {
        if used[i] { continue }
        vertices := nil; currEdgeIdx := i; startVertex := g.Edges[i].Src; validLoop := false
        for {
            used[currEdgeIdx] = true
            edge := g.Edges[currEdgeIdx]
            vertices = append(vertices, g.Vertices[edge.Src])
            if edge.Dst == startVertex { validLoop = true; break }
            nextIdx := -1
            for _, candIdx := range g.GetOutEdges(edge.Dst) {
                if !used[candIdx] { nextIdx = int(candIdx); break }
            }
            if nextIdx == -1 { break }
            currEdgeIdx = nextIdx
        }
        if validLoop && len(vertices) >= 3 { loops = append(loops, LoopFromPoints(vertices)) }
    }
    if len(loops) > 0 { *l.polygon = *PolygonFromLoops(loops) } else { *l.polygon = *PolygonFromLoops([]) }
    return nil

The inner walk marks a fresh unused edge on every iteration, so it performs
at most `len(g.Edges)` iterations; the embedding gives it that much fuel
(`g.edges.length + 1`).  A loop is modelled as its vertex list, a polygon as
its loop list; `path` records the ghost sequence of walked edge indices so
closedness of a valid walk can be stated. -/

structure WalkResult (α : Type*) where
  used : List Bool
  verts : List α
  valid : Bool
  path : List Nat

/-- The `for _, candIdx := range candidates` scan for the first unused edge.
Indices produced by `GetOutEdges` are always in range; out-of-range lookups
default to `true` (used). -/
def findUnusedCandidate (used : List Bool) (candidates : List Nat) : Option Nat :=
  candidates.find? (fun c => !(used.getD c true))

/-- The inner `for` walk of `PolygonLayer.Build`. -/
def walkLoop {α : Type*} (g : BuilderGraph α) (x0 : α) (startVertex : Nat) :
    Nat → Nat → List Bool → List α → List Nat → WalkResult α
  | 0, _, used, verts, path => ⟨used, verts, false, path⟩
  | fuel + 1, currIdx, used, verts, path =>
      if (g.edges.getD currIdx dfltEdge).dst = startVertex then
        ⟨used.set currIdx true,
         verts ++ [g.vertices.getD (g.edges.getD currIdx dfltEdge).src x0], true,
         path ++ [currIdx]⟩
      else
        match findUnusedCandidate (used.set currIdx true)
            (getOutEdges g (g.edges.getD currIdx dfltEdge).dst) with
        | none =>
            ⟨used.set currIdx true,
             verts ++ [g.vertices.getD (g.edges.getD currIdx dfltEdge).src x0], false,
             path ++ [currIdx]⟩
        | some nextIdx =>
            walkLoop g x0 startVertex fuel nextIdx (used.set currIdx true)
              (verts ++ [g.vertices.getD (g.edges.getD currIdx dfltEdge).src x0])
              (path ++ [currIdx])

/-- The outer `for i := 0; i < len(g.Edges); i++` loop, carrying the `used`
flags and the accumulated loops. -/
def polygonLayerLoop {α : Type*} (g : BuilderGraph α) (x0 : α) :
    List Nat → List Bool → List (List α) → List Bool × List (List α)
  | [], used, loops => (used, loops)
  | i :: is, used, loops =>
      if used.getD i true then polygonLayerLoop g x0 is used loops
      else
        if (walkLoop g x0 (g.edges.getD i dfltEdge).src (g.edges.length + 1) i used [] []).valid
            && decide (3 ≤ (walkLoop g x0 (g.edges.getD i dfltEdge).src
                (g.edges.length + 1) i used [] []).verts.length) then
          polygonLayerLoop g x0 is
            (walkLoop g x0 (g.edges.getD i dfltEdge).src (g.edges.length + 1) i used [] []).used
            (loops ++ [(walkLoop g x0 (g.edges.getD i dfltEdge).src
              (g.edges.length + 1) i used [] []).verts])
        else
          polygonLayerLoop g x0 is
            (walkLoop g x0 (g.edges.getD i dfltEdge).src (g.edges.length + 1) i used [] []).used
            loops

/-- `PolygonLayer.Build`: extract the loops, replace the polygon wholesale
(explicitly empty when no loops were extracted), return nil error. -/
def polygonLayerBuild {α : Type*} (ε : Type*) (g : BuilderGraph α) (x0 : α)
    (oldPolygon : List (List α)) : List (List α) × Option ε :=
  ((if 0 < (polygonLayerLoop g x0 (List.range g.edges.length)
        (List.replicate g.edges.length false) []).2.length then
      (polygonLayerLoop g x0 (List.range g.edges.length)
        (List.replicate g.edges.length false) []).2
    else []), none)

theorem walkLoop_succ_closed {α : Type*} (g : BuilderGraph α) (x0 : α)
    (startVertex fuel currIdx : Nat) (used : List Bool) (verts : List α)
    (path : List Nat) (h : (g.edges.getD currIdx dfltEdge).dst = startVertex) :
    walkLoop g x0 startVertex (fuel + 1) currIdx used verts path
      = ⟨used.set currIdx true,
         verts ++ [g.vertices.getD (g.edges.getD currIdx dfltEdge).src x0], true,
         path ++ [currIdx]⟩ := by
  conv_lhs => rw [walkLoop]
  rw [if_pos h]

theorem walkLoop_succ_dead {α : Type*} (g : BuilderGraph α) (x0 : α)
    (startVertex fuel currIdx : Nat) (used : List Bool) (verts : List α)
    (path : List Nat) (h : ¬ (g.edges.getD currIdx dfltEdge).dst = startVertex)
    (h2 : findUnusedCandidate (used.set currIdx true)
      (getOutEdges g (g.edges.getD currIdx dfltEdge).dst) = none) :
    walkLoop g x0 startVertex (fuel + 1) currIdx used verts path
      = ⟨used.set currIdx true,
         verts ++ [g.vertices.getD (g.edges.getD currIdx dfltEdge).src x0], false,
         path ++ [currIdx]⟩ := by
  conv_lhs => rw [walkLoop]
  rw [if_neg h, h2]

theorem walkLoop_succ_step {α : Type*} (g : BuilderGraph α) (x0 : α)
    (startVertex fuel currIdx nextIdx : Nat) (used : List Bool) (verts : List α)
    (path : List Nat) (h : ¬ (g.edges.getD currIdx dfltEdge).dst = startVertex)
    (h2 : findUnusedCandidate (used.set currIdx true)
      (getOutEdges g (g.edges.getD currIdx dfltEdge).dst) = some nextIdx) :
    walkLoop g x0 startVertex (fuel + 1) currIdx used verts path
      = walkLoop g x0 startVertex fuel nextIdx (used.set currIdx true)
          (verts ++ [g.vertices.getD (g.edges.getD currIdx dfltEdge).src x0])
          (path ++ [currIdx]) := by
  conv_lhs => rw [walkLoop]
  rw [if_neg h, h2]

/-- A valid walk ends with an edge whose destination is the start vertex. -/
theorem walkLoop_valid_closed {α : Type*} (g : BuilderGraph α) (x0 : α)
    (startVertex : Nat) :
    ∀ (fuel currIdx : Nat) (used : List Bool) (verts : List α) (path : List Nat),
      (walkLoop g x0 startVertex fuel currIdx used verts path).valid = true →
      ∃ j, (walkLoop g x0 startVertex fuel currIdx used verts path).path.getLast?
            = some j
        ∧ (g.edges.getD j dfltEdge).dst = startVertex := by
  intro fuel
  induction fuel with
  | zero => intro currIdx used verts path h; exact absurd h (by simp [walkLoop])
  | succ fuel ih =>
      intro currIdx used verts path h
      by_cases hd : (g.edges.getD currIdx dfltEdge).dst = startVertex
      · rw [walkLoop_succ_closed g x0 startVertex fuel currIdx used verts path hd]
        exact ⟨currIdx, by simp, hd⟩
      · cases h2 : findUnusedCandidate (used.set currIdx true)
            (getOutEdges g (g.edges.getD currIdx dfltEdge).dst) with
        | none =>
            rw [walkLoop_succ_dead g x0 startVertex fuel currIdx used verts path hd h2] at h
            exact absurd h (by simp)
        | some nextIdx =>
            rw [walkLoop_succ_step g x0 startVertex fuel currIdx nextIdx used verts path hd h2]
              at h ⊢
            exact ih nextIdx (used.set currIdx true)
              (verts ++ [g.vertices.getD (g.edges.getD currIdx dfltEdge).src x0])
              (path ++ [currIdx]) h

theorem polygonLayerLoop_mem {α : Type*} (g : BuilderGraph α) (x0 : α) :
    ∀ (is : List Nat) (used : List Bool) (loops : List (List α)) (l : List α),
      l ∈ (polygonLayerLoop g x0 is used loops).2 → l ∈ loops ∨ 3 ≤ l.length := by
  intro is
  induction is with
  | nil => intro used loops l h; exact Or.inl h
  | cons i is ih =>
      intro used loops l h
      rw [polygonLayerLoop] at h
      by_cases hu : used.getD i true
      · rw [if_pos hu] at h
        exact ih used loops l h
      · rw [if_neg hu] at h
        by_cases hv : ((walkLoop g x0 (g.edges.getD i dfltEdge).src
              (g.edges.length + 1) i used [] []).valid
            && decide (3 ≤ (walkLoop g x0 (g.edges.getD i dfltEdge).src
                (g.edges.length + 1) i used [] []).verts.length)) = true
        · rw [if_pos hv] at h
          rcases ih _ _ l h with hmem | hlen
          · rw [List.mem_append] at hmem
            rcases hmem with hmem | hmem
            · exact Or.inl hmem
            · rw [List.mem_singleton] at hmem
              subst hmem
              rw [Bool.and_eq_true, decide_eq_true_eq] at hv
              exact Or.inr hv.2
          · exact Or.inr hlen
        · rw [if_neg hv] at h
          exact ih _ _ l h

/-- C7: `PolygonLayer.Build` never returns an error; the output polygon is a
pure function of the graph (the previous polygon contents are replaced
wholesale, and when no loops are extracted the result is the explicitly
empty polygon); every loop in the output has at least 3 vertices; a walk is
flagged valid only when it has returned to its start vertex (the last walked
edge points back to the start); and a walk that ends invalid (dead end)
contributes no loop — the outer loop continues silently with the loop list
unchanged. -/
theorem c7_polygon_layer_loop_extraction {α ε : Type*} (g : BuilderGraph α) (x0 : α) :
    (∀ oldPolygon, (polygonLayerBuild ε g x0 oldPolygon).2 = none)
    ∧ (∀ old1 old2, polygonLayerBuild ε g x0 old1 = polygonLayerBuild ε g x0 old2)
    ∧ (∀ oldPolygon, ∀ l ∈ (polygonLayerBuild ε g x0 oldPolygon).1, 3 ≤ l.length)
    ∧ (∀ (fuel currIdx : Nat) (used : List Bool) (verts : List α) (path : List Nat)
        (startVertex : Nat),
        (walkLoop g x0 startVertex fuel currIdx used verts path).valid = true →
        ∃ j, (walkLoop g x0 startVertex fuel currIdx used verts path).path.getLast?
              = some j
          ∧ (g.edges.getD j dfltEdge).dst = startVertex)
    ∧ (∀ (is : List Nat) (i : Nat) (used : List Bool) (loops : List (List α)),
        used.getD i true = false →
        ((walkLoop g x0 (g.edges.getD i dfltEdge).src (g.edges.length + 1) i used [] []).valid
            && decide (3 ≤ (walkLoop g x0 (g.edges.getD i dfltEdge).src
                (g.edges.length + 1) i used [] []).verts.length)) = false →
        polygonLayerLoop g x0 (i :: is) used loops
          = polygonLayerLoop g x0 is
              (walkLoop g x0 (g.edges.getD i dfltEdge).src
                (g.edges.length + 1) i used [] []).used loops) := by
  refine ⟨fun _ => rfl, fun _ _ => rfl, ?_, ?_, ?_⟩
  · intro oldPolygon l h
    unfold polygonLayerBuild at h
    by_cases h0 : 0 < (polygonLayerLoop g x0 (List.range g.edges.length)
        (List.replicate g.edges.length false) []).2.length
    · rw [if_pos h0] at h
      rcases polygonLayerLoop_mem g x0 _ _ _ l h with hmem | hlen
      · exact absurd hmem (List.not_mem_nil l)
      · exact hlen
    · rw [if_neg h0] at h
      exact absurd h (List.not_mem_nil l)
  · intro fuel currIdx used verts path startVertex h
    exact walkLoop_valid_closed g x0 startVertex fuel currIdx used verts path h
  · intro is i used loops hu hv
    rw [polygonLayerLoop, if_neg (by rw [hu]; exact Bool.false_ne_true),
      if_neg (by rw [hv]; exact Bool.false_ne_true)]

/-- Witness for C7 at a concrete graph: a triangle 0 → 1 → 2 → 0 plus a
dangling edge 0 → 1 whose walk dead-ends; the output polygon is the single
triangle loop, with no error. -/
theorem c7_polygon_layer_loop_extraction_witness :
    (polygonLayerBuild (α := Nat) Nat
        (newBuilderGraph ⟨.directed, .discard, .keep, .discard⟩ [10, 11, 12]
          [⟨0, 1, [0]⟩, ⟨1, 2, [1]⟩, ⟨2, 0, [2]⟩, ⟨0, 1, [3]⟩]) 99 [[7, 7, 7]]).2 = none
    ∧ (∀ l ∈ (polygonLayerBuild (α := Nat) Nat
        (newBuilderGraph ⟨.directed, .discard, .keep, .discard⟩ [10, 11, 12]
          [⟨0, 1, [0]⟩, ⟨1, 2, [1]⟩, ⟨2, 0, [2]⟩, ⟨0, 1, [3]⟩]) 99 [[7, 7, 7]]).1,
        3 ≤ l.length) := by
  refine ⟨(c7_polygon_layer_loop_extraction _ _).1 _, ?_⟩
  intro l h
  exact (c7_polygon_layer_loop_extraction _ _).2.2.1 [[7, 7, 7]] l h

/-! ## Buffer operation (buffer_operation.go)

Translation of `BufferOperation`: the geometric primitives (`PointOnRay`,
`Ortho`, cross products, `RobustSign`) are external collaborators and appear
as abstract functions; angles are modelled as rationals.  `outputPath`
models the `*PolygonLayer` result layer (the type assertion in the source):
a path of at least 3 vertices is appended to the layer polygon's loops.
The Go pair (`haveInputStart`, `inputStart`) is one `Option`; likewise for
the offset start.  `closeBufferRegion` only updates a winding stub in this
source, so it is the identity. -/

inductive BufferEndCapStyle where
  | round
  | flat
  deriving DecidableEq, Repr

structure GeomPrims (α : Type*) where
  pointOnRay : α → α → ℚ → α
  ortho : α → α
  crossNorm : α → α → α
  pointCrossNorm : α → α → α
  robustSign : α → α → α → Int
  neg : α → α

structure BufferConfig (α : Type*) where
  prims : GeomPrims α
  bufferSign : Int
  absRadius : ℚ
  endCapStyle : BufferEndCapStyle
  pointStep : ℚ
  rightAngle : ℚ
  x0 : α

structure BufferState (α : Type*) where
  path : List α
  inputStart : Option α
  offsetStart : Option α
  sweepA : Option α
  sweepB : Option α
  outputLoops : List (List α)

def emptyBufferState {α : Type*} : BufferState α := ⟨[], none, none, none, none, []⟩

def setInputVertex {α : Type*} (st : BufferState α) (p : α) : BufferState α :=
  { st with
    inputStart := match st.inputStart with
      | some q => some q
      | none => some p,
    sweepA := some p }

def addOffsetVertex {α : Type*} (st : BufferState α) (p : α) : BufferState α :=
  { st with
    path := st.path ++ [p],
    offsetStart := match st.offsetStart with
      | some q => some q
      | none => some p,
    sweepB := some p }

/-- `getEdgeAxis(a,b) = normalize(b.PointCross(a))`, sign-flipped for a
negative buffer radius. -/
def getEdgeAxis {α : Type*} (cfg : BufferConfig α) (a b : α) : α :=
  if cfg.bufferSign < 0 then cfg.prims.neg (cfg.prims.pointCrossNorm b a)
  else cfg.prims.pointCrossNorm b a

def addEdgeArc {α : Type*} (cfg : BufferConfig α) (st : BufferState α) (a b : α) :
    BufferState α :=
  setInputVertex
    (addOffsetVertex st (cfg.prims.pointOnRay b (getEdgeAxis cfg a b) cfg.absRadius)) b

def closeEdgeArc {α : Type*} (cfg : BufferConfig α) (st : BufferState α) (a b : α) :
    BufferState α :=
  addOffsetVertex st (cfg.prims.pointOnRay b (getEdgeAxis cfg a b) cfg.absRadius)

/-- Simplified arc logic of the source: compute the (unused) rotation
direction, then add only the arc's end point. -/
def addVertexArc {α : Type*} (cfg : BufferConfig α) (st : BufferState α)
    (v start endDir : α) : BufferState α :=
  addOffsetVertex st (cfg.prims.pointOnRay v endDir cfg.absRadius)

def closeVertexArc {α : Type*} (cfg : BufferConfig α) (st : BufferState α)
    (v endDir : α) : BufferState α :=
  addOffsetVertex st (cfg.prims.pointOnRay v endDir cfg.absRadius)

def addStartCap {α : Type*} (cfg : BufferConfig α) (st : BufferState α) (a b : α) :
    BufferState α :=
  match cfg.endCapStyle with
  | .round => addVertexArc cfg st a (cfg.prims.neg (getEdgeAxis cfg a b)) (getEdgeAxis cfg a b)
  | .flat =>
      addOffsetVertex st
        (cfg.prims.pointOnRay a (cfg.prims.neg (getEdgeAxis cfg a b)) cfg.absRadius)

def addEndCap {α : Type*} (cfg : BufferConfig α) (st : BufferState α) (a b : α) :
    BufferState α :=
  match cfg.endCapStyle with
  | .round => addVertexArc cfg st b (getEdgeAxis cfg a b) (cfg.prims.neg (getEdgeAxis cfg a b))
  | .flat => closeEdgeArc cfg st a b

/-- `bufferEdgeAndVertex(a,b,c)`: offset the edge, then arc at `b` if the
turn is convex relative to the buffer direction, else join directly. -/
def bufferEdgeAndVertex {α : Type*} (cfg : BufferConfig α) (st : BufferState α)
    (a b c : α) : BufferState α :=
  if 0 ≤ cfg.bufferSign * cfg.prims.robustSign a b c then
    addVertexArc cfg (addEdgeArc cfg st a b) b (getEdgeAxis cfg a b) (getEdgeAxis cfg b c)
  else
    addOffsetVertex (closeEdgeArc cfg (addEdgeArc cfg st a b) a b) b

def closeBufferRegion {α : Type*} (st : BufferState α) : BufferState α := st

def outputPath {α : Type*} (st : BufferState α) : BufferState α :=
  { path := [],
    inputStart := none,
    offsetStart := none,
    sweepA := st.sweepA,
    sweepB := st.sweepB,
    outputLoops :=
      if 3 ≤ st.path.length then st.outputLoops ++ [st.path] else st.outputLoops }

/-- One quadrant of `AddPoint`: `for angle < right { ... angle += pointStep }`,
with fuel for the angle loop (the source loop terminates for any positive
step). -/
def addPointQuadrant {α : Type*} (cfg : BufferConfig α) (p start rotateDir : α) :
    Nat → ℚ → BufferState α → BufferState α × ℚ
  | 0, angle, st => (st, angle)
  | fuel + 1, angle, st =>
      if angle < cfg.rightAngle then
        addPointQuadrant cfg p start rotateDir fuel (angle + cfg.pointStep)
          (addOffsetVertex st
            (cfg.prims.pointOnRay p (cfg.prims.pointOnRay start rotateDir angle)
              cfg.absRadius))
      else (st, angle)

/-- The `for i := 0; i < 4; i++` quadrant loop of `AddPoint`. -/
def addPointQuadrants {α : Type*} (cfg : BufferConfig α) (p : α) (fuel : Nat) :
    Nat → α → ℚ → BufferState α → BufferState α
  | 0, _, _, st => st
  | n + 1, start, angle, st =>
      match addPointQuadrant cfg p start (cfg.prims.crossNorm p start) fuel angle st with
      | (st2, angle2) =>
          addPointQuadrants cfg p fuel n (cfg.prims.crossNorm p start)
            (angle2 - cfg.rightAngle) st2

/-- `BufferOperation.AddPoint`. -/
def bufferAddPoint {α : Type*} (cfg : BufferConfig α) (fuel : Nat)
    (st : BufferState α) (p : α) : BufferState α :=
  if cfg.bufferSign = 0 then st
  else
    outputPath (closeBufferRegion
      (addPointQuadrants cfg p fuel 4 (cfg.prims.ortho p) 0 (setInputVertex st p)))

/-- `BufferOperation.AddPolyline`. -/
def bufferAddPolyline {α : Type*} (cfg : BufferConfig α) (st : BufferState α)
    (pts : List α) : BufferState α :=
  if pts.length < 2 then st
  else
    outputPath (closeBufferRegion
      (addEdgeArc cfg
        ((List.range (pts.length - 2)).reverse.foldl
          (fun st2 i =>
            bufferEdgeAndVertex cfg st2 (pts.getD (i + 2) cfg.x0)
              (pts.getD (i + 1) cfg.x0) (pts.getD i cfg.x0))
          (addEndCap cfg
            (addEdgeArc cfg
              ((List.range (pts.length - 2)).foldl
                (fun st2 i =>
                  bufferEdgeAndVertex cfg st2 (pts.getD i cfg.x0)
                    (pts.getD (i + 1) cfg.x0) (pts.getD (i + 2) cfg.x0))
                (addStartCap cfg (setInputVertex st (pts.getD 0 cfg.x0))
                  (pts.getD 0 cfg.x0) (pts.getD 1 cfg.x0)))
              (pts.getD (pts.length - 2) cfg.x0) (pts.getD (pts.length - 1) cfg.x0))
            (pts.getD (pts.length - 2) cfg.x0) (pts.getD (pts.length - 1) cfg.x0)))
        (pts.getD 1 cfg.x0) (pts.getD 0 cfg.x0)))

/-- `BufferOperation.AddLoop`. -/
def bufferAddLoop {α : Type*} (cfg : BufferConfig α) (st : BufferState α)
    (pts : List α) : BufferState α :=
  if pts.length < 3 then st
  else
    outputPath (closeBufferRegion
      ((List.range pts.length).foldl
        (fun st2 i =>
          bufferEdgeAndVertex cfg st2 (pts.getD i cfg.x0)
            (pts.getD ((i + 1) % pts.length) cfg.x0)
            (pts.getD ((i + 2) % pts.length) cfg.x0))
        (setInputVertex st (pts.getD 0 cfg.x0))))

/-- Trivial primitives over a one-point space, for concrete evaluation: the
claim under test concerns control flow only. -/
def unitPrims : GeomPrims Unit :=
  ⟨fun _ _ _ => (), fun _ => (), fun _ _ => (), fun _ _ => (), fun _ _ _ => 0, fun _ => ()⟩

def zeroSignCfg : BufferConfig Unit :=
  ⟨unitPrims, 0, 0, .round, 0, 0, ()⟩

/-- C4 counterexample: with `bufferSign == 0` (radius exactly zero),
`AddPolyline` on a 2-vertex polyline is not a no-op: it emits four offset
vertices and appends a loop to the output layer.  Only `AddPoint` has the
`bufferSign == 0` early return. -/
theorem c4_zero_radius_not_noop_counterexample :
    zeroSignCfg.bufferSign = 0
    ∧ bufferAddPolyline zeroSignCfg emptyBufferState [(), ()]
        ≠ emptyBufferState
    ∧ (bufferAddPolyline zeroSignCfg emptyBufferState [(), ()]).outputLoops
        = [[(), (), (), ()]]
    ∧ (bufferAddLoop zeroSignCfg emptyBufferState [(), (), ()]).outputLoops.length
        = 1 := by
  refine ⟨rfl, ?_, ?_, ?_⟩
  · intro h
    have h2 := congrArg (fun st => st.outputLoops.length) h
    simp only at h2
    rw [show (bufferAddPolyline zeroSignCfg emptyBufferState [(), ()]).outputLoops
        = [[(), (), (), ()]] from by rfl] at h2
    simp [emptyBufferState] at h2
  · rfl
  · rfl

/-- C4 (amended): buffering with `bufferSign == 0` is a no-op for points
(`AddPoint` returns immediately, emitting nothing), but not for polylines or
loops: `AddPolyline` and `AddLoop` never check `bufferSign`, and on a
2-vertex polyline with any primitives they emit four offset vertices and
append that 4-vertex loop to the output layer even when `bufferSign == 0`. -/
theorem c4_zero_radius_noop_for_points_only {α : Type*} (cfg : BufferConfig α)
    (st : BufferState α) (p : α) (fuel : Nat) (hsign : cfg.bufferSign = 0) :
    bufferAddPoint cfg fuel st p = st
    ∧ (∀ (pts : List α), st.path = [] → pts.length = 2 →
        ∃ l, (bufferAddPolyline cfg st pts).outputLoops = st.outputLoops ++ [l]
          ∧ l.length = 4) := by
  constructor
  · unfold bufferAddPoint
    rw [if_pos hsign]
  · intro pts hpath hlen
    obtain ⟨a, b, rfl⟩ := List.length_eq_two.mp hlen
    cases hcap : cfg.endCapStyle
    · refine ⟨[cfg.prims.pointOnRay a (getEdgeAxis cfg a b) cfg.absRadius,
        cfg.prims.pointOnRay b (getEdgeAxis cfg a b) cfg.absRadius,
        cfg.prims.pointOnRay b (cfg.prims.neg (getEdgeAxis cfg a b)) cfg.absRadius,
        cfg.prims.pointOnRay a (getEdgeAxis cfg b a) cfg.absRadius], ?_, rfl⟩
      unfold bufferAddPolyline
      simp only [List.length_cons, List.length_nil]
      rw [if_neg (by omega)]
      simp [outputPath, closeBufferRegion, addEdgeArc, addEndCap, addStartCap, hcap,
        addVertexArc, closeEdgeArc, addOffsetVertex, setInputVertex, hpath]
    · refine ⟨[cfg.prims.pointOnRay a (cfg.prims.neg (getEdgeAxis cfg a b)) cfg.absRadius,
        cfg.prims.pointOnRay b (getEdgeAxis cfg a b) cfg.absRadius,
        cfg.prims.pointOnRay b (getEdgeAxis cfg a b) cfg.absRadius,
        cfg.prims.pointOnRay a (getEdgeAxis cfg b a) cfg.absRadius], ?_, rfl⟩
      unfold bufferAddPolyline
      simp only [List.length_cons, List.length_nil]
      rw [if_neg (by omega)]
      simp [outputPath, closeBufferRegion, addEdgeArc, addEndCap, addStartCap, hcap,
        addVertexArc, closeEdgeArc, addOffsetVertex, setInputVertex, hpath]

/-- Witness for the amended C4 at the concrete zero-sign configuration. -/
theorem c4_zero_radius_noop_for_points_only_witness :
    zeroSignCfg.bufferSign = 0
    ∧ bufferAddPoint zeroSignCfg 5 emptyBufferState () = emptyBufferState
    ∧ ∃ l, (bufferAddPolyline zeroSignCfg emptyBufferState [(), ()]).outputLoops
          = (emptyBufferState (α := Unit)).outputLoops ++ [l] ∧ l.length = 4 := by
  have h := c4_zero_radius_noop_for_points_only zeroSignCfg emptyBufferState () 5 rfl
  exact ⟨rfl, h.1, h.2 [(), ()] rfl rfl⟩

/-! ## Boolean operation, union-only code variant

Translation of the `BooleanOperation.Build` variant whose build path only
implements union:

    if b.OpType == BooleanOperationOpTypeUnion {
        b.addEdges(builder, indexA)
        b.addEdges(builder, indexB)
    } else if b.OpType == BooleanOperationOpTypeIntersection {
        return fmt.Errorf("intersection not fully implemented in this port")
    }
    return builder.Build()

A shape index is modelled as its shapes' edge lists; `addEdges` walks every
edge of every shape and calls `Builder.AddEdge`.  The `fmt.Errorf` value is
a distinguished error `notImplErr`. -/

/-- `BooleanOperation.addEdges` of the union-only variant. -/
def boolOpV2AddEdges {α ε σ : Type*} (b : Builder α ε σ)
    (index : List (List (α × α))) : Builder α ε σ :=
  index.foldl (fun b2 shape => shape.foldl (fun b3 e => builderAddEdge b3 e.1 e.2) b2) b

/-- `BooleanOperation.Build` of the union-only variant: a fresh builder with
the layers registered, edges added only for union, an explicit error only
for intersection, and `builder.Build()` otherwise. -/
def boolOpV2Build {α ε σ : Type*} (d : α → α → ℚ) (snap : α → α) (radius : ℚ)
    (split : Bool) (notImplErr : ε) (layers : List (BuilderLayer α ε σ))
    (opType : BooleanOperationOpType) (indexA indexB : List (List (α × α))) :
    List σ × Option ε :=
  if opType = .union then
    builderBuild d snap radius split
      (boolOpV2AddEdges (boolOpV2AddEdges (layers.foldl builderStartLayer emptyBuilder)
        indexA) indexB)
  else if opType = .intersection then
    ([], some notImplErr)
  else
    builderBuild d snap radius split (layers.foldl builderStartLayer emptyBuilder)

/-- C9 counterexample: in the union-only variant, requesting Difference (or
SymmetricDifference) does not return an error: `Build` falls through both
branches, adds no edges at all, and succeeds on the empty input — a silently
wrong (empty) result rather than the explicit error value the claim
promises for every unsupported operation.  Concretely, with one polygon
layer and non-empty input regions, Difference yields no error and an empty
output. -/
theorem c9_difference_returns_no_error_counterexample :
    (boolOpV2Build (α := ℚ) (ε := Nat) (σ := Nat) lineDist exSnap 1 true 42
        [⟨⟨.directed, .discard, .keep, .discard⟩, fun g => .ok g.edges.length⟩]
        .difference [[(0, 1)]] [[(2, 3)]]).2 = none
    ∧ (boolOpV2Build (α := ℚ) (ε := Nat) (σ := Nat) lineDist exSnap 1 true 42
        [⟨⟨.directed, .discard, .keep, .discard⟩, fun g => .ok g.edges.length⟩]
        .difference [[(0, 1)]] [[(2, 3)]]).1 = [0] := by
  constructor
  · rfl
  · rfl

/-- C9 (amended): in the union-only variant, only Intersection is reported as
an explicit error value from `Build()`; Difference and SymmetricDifference
are silently ignored — no edges are added and the result equals building
with empty input, independent of the two regions — while Union adds the
edges of both regions before building. -/
theorem c9_unsupported_op_handling {α ε σ : Type*} (d : α → α → ℚ) (snap : α → α)
    (radius : ℚ) (split : Bool) (notImplErr : ε)
    (layers : List (BuilderLayer α ε σ)) (indexA indexB : List (List (α × α))) :
    (boolOpV2Build d snap radius split notImplErr layers .intersection indexA indexB
        = ([], some notImplErr))
    ∧ (boolOpV2Build d snap radius split notImplErr layers .difference indexA indexB
        = builderBuild d snap radius split (layers.foldl builderStartLayer emptyBuilder))
    ∧ (boolOpV2Build d snap radius split notImplErr layers .symmetricDifference
          indexA indexB
        = builderBuild d snap radius split (layers.foldl builderStartLayer emptyBuilder))
    ∧ (boolOpV2Build d snap radius split notImplErr layers .union indexA indexB
        = builderBuild d snap radius split
            (boolOpV2AddEdges (boolOpV2AddEdges (layers.foldl builderStartLayer
              emptyBuilder) indexA) indexB)) := by
  exact ⟨rfl, rfl, rfl, rfl⟩

/-- Witness is not required (no hypotheses), but the amended behaviour is
also exercised at a concrete input: Intersection errors, Difference does
not. -/
theorem c9_unsupported_op_handling_witness :
    (boolOpV2Build (α := ℚ) (ε := Nat) (σ := Nat) lineDist exSnap 1 true 42
        [⟨⟨.directed, .discard, .keep, .discard⟩, fun g => .ok g.edges.length⟩]
        .intersection [[(0, 1)]] [[(2, 3)]]).2 = some 42 := by
  have h := c9_unsupported_op_handling (α := ℚ) (ε := Nat) (σ := Nat) lineDist exSnap
    1 true 42 [⟨⟨.directed, .discard, .keep, .discard⟩, fun g => .ok g.edges.length⟩]
    [[(0, 1)]] [[(2, 3)]]
  rw [h.1]

/-! ## sortIntersections (boolean_operation.go) and Go sort.Slice

`sortIntersections` sorts the collected crossing points by chord-angle
distance from the edge start:

    sort.Slice(points, func(i, j int) bool {
        di := ChordAngleBetweenPoints(start, points[i])
        dj := ChordAngleBetweenPoints(start, points[j])
        return di < dj
    })

`sort.Slice` is the Go standard library's pattern-defeating quicksort
(pdqsort); its documented contract explicitly does NOT guarantee stability.
The namespace below is a faithful translation of Go's `pdqsort_func` and its
helpers (insertion sort, heap sort, `choosePivot`/`median`, `breakPatterns`
with the xorshift generator, the guarded-insertion pass called
partialInsertionSort in Go, `partitionEqual`, `partition`): slices become
lists with total index accessors, `uint64` arithmetic is taken mod `2^64`,
and the in-place loops become fuel-based recursions (each Go loop is bounded
by its index range; the fuel arguments cover those bounds).  The main
pdqsort loop/recursion carries explicit fuel; Go's recursion always
terminates and the theorems below rely only on executions within fuel.
Chord angles are a monotonic surrogate for distance, modelled as rational
keys. -/

namespace GoSort

/-- Total indexing; Go slice reads are in-bounds wherever the algorithm
touches them. -/
def aGet {α : Type*} [Inhabited α] (l : List α) (i : Nat) : α := l.getD i default

/-- `data.Swap(i, j)`. -/
def aSwap {α : Type*} [Inhabited α] (l : List α) (i j : Nat) : List α :=
  (l.set i (aGet l j)).set j (aGet l i)

inductive SortedHint where
  | unknown
  | increasing
  | decreasing
  deriving DecidableEq, Repr

/-- The inner loop of Go's `insertionSort_func`
(`for j := i; j > a && data.Less(j, j-1); j-- { data.Swap(j, j-1) }`) on the
reversed sorted prefix: the new element `x` sinks leftward past every
strictly greater neighbour. -/
def bubbleLeft {α : Type*} (lt : α → α → Bool) (x : α) : List α → List α
  | [] => [x]
  | y :: ys => if lt x y then y :: bubbleLeft lt x ys else x :: y :: ys

/-- Go's `insertionSort_func` over a whole list: fold the elements left to
right, maintaining the sorted prefix in reversed form. -/
def insertionSortGo {α : Type*} (lt : α → α → Bool) (l : List α) : List α :=
  (l.foldl (fun revPrefix x => bubbleLeft lt x revPrefix) []).reverse

def slice {α : Type*} (l : List α) (a b : Nat) : List α := (l.drop a).take (b - a)

def setSlice {α : Type*} (l : List α) (a : Nat) (xs : List α) : List α :=
  l.take a ++ xs ++ l.drop (a + xs.length)

/-- `insertionSort_func(data, a, b)`: sort the subrange in place. -/
def insertionSortRange {α : Type*} (lt : α → α → Bool) (l : List α) (a b : Nat) :
    List α :=
  setSlice l a (insertionSortGo lt (slice l a b))

/-- `siftDown_func`; the walk down the heap is bounded by `hi`. -/
def siftDown {α : Type*} [Inhabited α] (lt : α → α → Bool) :
    Nat → List α → Nat → Nat → Nat → List α
  | 0, l, _, _, _ => l
  | fuel + 1, l, root, hi, first =>
      if 2 * root + 1 ≥ hi then l
      else
        if 2 * root + 2 < hi
            && lt (aGet l (first + 2 * root + 1)) (aGet l (first + 2 * root + 2)) then
          if !lt (aGet l (first + root)) (aGet l (first + 2 * root + 2)) then l
          else siftDown lt fuel (aSwap l (first + root) (first + 2 * root + 2))
            (2 * root + 2) hi first
        else
          if !lt (aGet l (first + root)) (aGet l (first + 2 * root + 1)) then l
          else siftDown lt fuel (aSwap l (first + root) (first + 2 * root + 1))
            (2 * root + 1) hi first

/-- First loop of `heapSort_func`: build the heap, `i` from `(hi-1)/2` down
to 0. -/
def heapSortBuild {α : Type*} [Inhabited α] (lt : α → α → Bool) (hi first : Nat) :
    Nat → List α → List α
  | 0, l => l
  | cnt + 1, l => heapSortBuild lt hi first cnt (siftDown lt (hi + 1) l cnt hi first)

/-- Second loop of `heapSort_func`: pop elements, `i` from `hi-1` down to
0. -/
def heapSortPop {α : Type*} [Inhabited α] (lt : α → α → Bool) (first : Nat) :
    Nat → List α → List α
  | 0, l => l
  | i + 1, l => heapSortPop lt first i (siftDown lt (i + 2) (aSwap l first (first + i)) 0 i first)

def heapSortRange {α : Type*} [Inhabited α] (lt : α → α → Bool) (l : List α)
    (a b : Nat) : List α :=
  heapSortPop lt a (b - a) (heapSortBuild lt (b - a) a ((b - a - 1) / 2 + 1) l)

/-- `bits.Len` (number of bits of a natural number), by structural
recursion so concrete runs reduce in the kernel. -/
def bitsLenAux : Nat → Nat → Nat
  | 0, _ => 0
  | fuel + 1, n => if n = 0 then 0 else bitsLenAux fuel (n / 2) + 1

def bitsLen (n : Nat) : Nat := bitsLenAux (n + 1) n

/-- One step of Go's xorshift generator on `uint64`. -/
def xorshiftNext (r : Nat) : Nat :=
  (((r ^^^ (r <<< 13)) % 2 ^ 64 ^^^ ((r ^^^ (r <<< 13)) % 2 ^ 64 >>> 7)) % 2 ^ 64
      ^^^ ((((r ^^^ (r <<< 13)) % 2 ^ 64 ^^^ ((r ^^^ (r <<< 13)) % 2 ^ 64 >>> 7)) % 2 ^ 64)
        <<< 17)) % 2 ^ 64

def nextPowerOfTwo (length : Nat) : Nat := 1 <<< bitsLen length

/-- One of the three random swaps of `breakPatterns_func` (`other` is the
masked random value, folded back below `length`). -/
def breakPatternsSwap {α : Type*} [Inhabited α] (l : List α)
    (a length modulus idxBase : Nat) (r : Nat) (off : Nat) : List α × Nat :=
  (aSwap l (idxBase + off)
    (a + (if xorshiftNext r % modulus ≥ length
      then xorshiftNext r % modulus - length else xorshiftNext r % modulus)),
   xorshiftNext r)

/-- `breakPatterns_func`: three pseudo-random swaps around the middle
(`idx-1`, `idx`, `idx+1` with `idx = a + (length/4)*2 - 1`), seeded by the
range length. -/
def breakPatterns {α : Type*} [Inhabited α] (lt : α → α → Bool) (l : List α)
    (a b : Nat) : List α :=
  if b - a ≥ 8 then
    match breakPatternsSwap l a (b - a) (nextPowerOfTwo (b - a))
        (a + ((b - a) / 4) * 2 - 1 - 1) (b - a) 0 with
    | (l1, r1) =>
      match breakPatternsSwap l1 a (b - a) (nextPowerOfTwo (b - a))
          (a + ((b - a) / 4) * 2 - 1 - 1) r1 1 with
      | (l2, r2) =>
        (breakPatternsSwap l2 a (b - a) (nextPowerOfTwo (b - a))
          (a + ((b - a) / 4) * 2 - 1 - 1) r2 2).1
  else l

/-- `order2_func`: order two indices by the data, tracking the swap count. -/
def order2 {α : Type*} [Inhabited α] (lt : α → α → Bool) (l : List α)
    (a b : Nat) (swaps : Nat) : Nat × Nat × Nat :=
  if lt (aGet l b) (aGet l a) then (b, a, swaps + 1) else (a, b, swaps)

/-- `median_func`. -/
def median {α : Type*} [Inhabited α] (lt : α → α → Bool) (l : List α)
    (a b c : Nat) (swaps : Nat) : Nat × Nat :=
  match order2 lt l a b swaps with
  | (a1, b1, s1) =>
      match order2 lt l b1 c s1 with
      | (b2, _, s2) =>
          match order2 lt l a1 b2 s2 with
          | (_, b3, s3) => (b3, s3)

/-- `medianAdjacent_func`. -/
def medianAdjacent {α : Type*} [Inhabited α] (lt : α → α → Bool) (l : List α)
    (i : Nat) (swaps : Nat) : Nat × Nat :=
  median lt l (i - 1) i (i + 1) swaps

def hintOfSwaps (swaps : Nat) : SortedHint :=
  if swaps = 0 then .increasing else if swaps = 12 then .decreasing else .unknown

/-- `choosePivot_func`: static pivot below 8 elements, median of three up to
49, Tukey ninther beyond. -/
def choosePivot {α : Type*} [Inhabited α] (lt : α → α → Bool) (l : List α)
    (a b : Nat) : Nat × SortedHint :=
  if b - a ≥ 8 then
    if b - a ≥ 50 then
      match medianAdjacent lt l (a + ((b - a) / 4) * 1) 0 with
      | (i2, s1) =>
          match medianAdjacent lt l (a + ((b - a) / 4) * 2) s1 with
          | (j2, s2) =>
              match medianAdjacent lt l (a + ((b - a) / 4) * 3) s2 with
              | (k2, s3) =>
                  match median lt l i2 j2 k2 s3 with
                  | (j3, s4) => (j3, hintOfSwaps s4)
    else
      match median lt l (a + ((b - a) / 4) * 1) (a + ((b - a) / 4) * 2)
          (a + ((b - a) / 4) * 3) 0 with
      | (j2, s) => (j2, hintOfSwaps s)
  else (a + ((b - a) / 4) * 2, .increasing)

def reverseRangeLoop {α : Type*} [Inhabited α] : Nat → List α → Nat → Nat → List α
  | 0, l, _, _ => l
  | fuel + 1, l, i, j => if i < j then reverseRangeLoop fuel (aSwap l i j) (i + 1) (j - 1) else l

/-- `reverseRange_func`. -/
def reverseRange {α : Type*} [Inhabited α] (l : List α) (a b : Nat) : List α :=
  reverseRangeLoop (b - a) l a (b - 1)

/-- Scan of the guarded-insertion pass: advance `i` past the sorted run. -/
def pScanUp {α : Type*} [Inhabited α] (lt : α → α → Bool) (l : List α) (b : Nat) :
    Nat → Nat → Nat
  | 0, i => i
  | fuel + 1, i =>
      if i < b && !lt (aGet l i) (aGet l (i - 1)) then pScanUp lt l b fuel (i + 1) else i

/-- Leftward shift of the smaller element (only reached on ranges of at
least 50 elements). -/
def pShiftLeft {α : Type*} [Inhabited α] (lt : α → α → Bool) : Nat → List α → Nat → List α
  | 0, l, _ => l
  | fuel + 1, l, j =>
      if j ≥ 1 && lt (aGet l j) (aGet l (j - 1)) then
        pShiftLeft lt fuel (aSwap l j (j - 1)) (j - 1)
      else l

/-- Rightward shift of the greater element. -/
def pShiftRight {α : Type*} [Inhabited α] (lt : α → α → Bool) (b : Nat) :
    Nat → List α → Nat → List α
  | 0, l, _ => l
  | fuel + 1, l, j =>
      if j < b && lt (aGet l j) (aGet l (j - 1)) then
        pShiftRight lt b fuel (aSwap l j (j - 1)) (j + 1)
      else l

/-- The body of the guarded-insertion pass (Go's partialInsertionSort), up
to `maxSteps = 5` adjacent fix-ups; on ranges shorter than 50 it returns
before mutating anything. -/
def pInsertionSortLoop {α : Type*} [Inhabited α] (lt : α → α → Bool) (a b : Nat) :
    Nat → List α → Nat → List α × Bool
  | 0, l, _ => (l, false)
  | steps + 1, l, i =>
      if pScanUp lt l b (b + 1) i = b then (l, true)
      else if b - a < 50 then (l, false)
      else
        pInsertionSortLoop lt a b steps
          (if b - pScanUp lt l b (b + 1) i ≥ 2 then
            pShiftRight lt b (b - pScanUp lt l b (b + 1) i)
              (if pScanUp lt l b (b + 1) i - a ≥ 2 then
                pShiftLeft lt (pScanUp lt l b (b + 1) i)
                  (aSwap l (pScanUp lt l b (b + 1) i) (pScanUp lt l b (b + 1) i - 1))
                  (pScanUp lt l b (b + 1) i - 1)
              else aSwap l (pScanUp lt l b (b + 1) i) (pScanUp lt l b (b + 1) i - 1))
              (pScanUp lt l b (b + 1) i + 1)
          else
            (if pScanUp lt l b (b + 1) i - a ≥ 2 then
              pShiftLeft lt (pScanUp lt l b (b + 1) i)
                (aSwap l (pScanUp lt l b (b + 1) i) (pScanUp lt l b (b + 1) i - 1))
                (pScanUp lt l b (b + 1) i - 1)
            else aSwap l (pScanUp lt l b (b + 1) i) (pScanUp lt l b (b + 1) i - 1)))
          (pScanUp lt l b (b + 1) i)

def pInsertionSort {α : Type*} [Inhabited α] (lt : α → α → Bool) (l : List α)
    (a b : Nat) : List α × Bool :=
  pInsertionSortLoop lt a b 5 l (a + 1)

def peSkipI {α : Type*} [Inhabited α] (lt : α → α → Bool) (l : List α) (a : Nat) :
    Nat → Nat → Nat → Nat
  | 0, i, _ => i
  | fuel + 1, i, j =>
      if i ≤ j && !lt (aGet l a) (aGet l i) then peSkipI lt l a fuel (i + 1) j else i

def peSkipJ {α : Type*} [Inhabited α] (lt : α → α → Bool) (l : List α) (a : Nat) :
    Nat → Nat → Nat → Nat
  | 0, _, j => j
  | fuel + 1, i, j =>
      if i ≤ j && lt (aGet l a) (aGet l j) then peSkipJ lt l a fuel i (j - 1) else j

def partitionEqualLoop {α : Type*} [Inhabited α] (lt : α → α → Bool) (a b : Nat) :
    Nat → List α → Nat → Nat → List α × Nat
  | 0, l, i, _ => (l, i)
  | fuel + 1, l, i, j =>
      if peSkipI lt l a (b + 1) i j > peSkipJ lt l a (b + 1) (peSkipI lt l a (b + 1) i j) j then
        (l, peSkipI lt l a (b + 1) i j)
      else
        partitionEqualLoop lt a b fuel
          (aSwap l (peSkipI lt l a (b + 1) i j)
            (peSkipJ lt l a (b + 1) (peSkipI lt l a (b + 1) i j) j))
          (peSkipI lt l a (b + 1) i j + 1)
          (peSkipJ lt l a (b + 1) (peSkipI lt l a (b + 1) i j) j - 1)

/-- `partitionEqual_func`. -/
def partitionEqual {α : Type*} [Inhabited α] (lt : α → α → Bool) (l : List α)
    (a b pivot : Nat) : List α × Nat :=
  partitionEqualLoop lt a b (b - a + 1) (aSwap l a pivot) (a + 1) (b - 1)

def pSkipI {α : Type*} [Inhabited α] (lt : α → α → Bool) (l : List α) (a : Nat) :
    Nat → Nat → Nat → Nat
  | 0, i, _ => i
  | fuel + 1, i, j =>
      if i ≤ j && lt (aGet l i) (aGet l a) then pSkipI lt l a fuel (i + 1) j else i

def pSkipJ {α : Type*} [Inhabited α] (lt : α → α → Bool) (l : List α) (a : Nat) :
    Nat → Nat → Nat → Nat
  | 0, _, j => j
  | fuel + 1, i, j =>
      if i ≤ j && !lt (aGet l j) (aGet l a) then pSkipJ lt l a fuel i (j - 1) else j

def partitionLoop {α : Type*} [Inhabited α] (lt : α → α → Bool) (a b : Nat) :
    Nat → List α → Nat → Nat → List α × Nat
  | 0, l, _, j => (aSwap l j a, j)
  | fuel + 1, l, i, j =>
      if pSkipI lt l a (b + 1) i j > pSkipJ lt l a (b + 1) (pSkipI lt l a (b + 1) i j) j then
        (aSwap l (pSkipJ lt l a (b + 1) (pSkipI lt l a (b + 1) i j) j) a,
         pSkipJ lt l a (b + 1) (pSkipI lt l a (b + 1) i j) j)
      else
        partitionLoop lt a b fuel
          (aSwap l (pSkipI lt l a (b + 1) i j)
            (pSkipJ lt l a (b + 1) (pSkipI lt l a (b + 1) i j) j))
          (pSkipI lt l a (b + 1) i j + 1)
          (pSkipJ lt l a (b + 1) (pSkipI lt l a (b + 1) i j) j - 1)

/-- `partition_func`: pivot to the front, converge `i` and `j`, report
whether the range was already partitioned. -/
def partition {α : Type*} [Inhabited α] (lt : α → α → Bool) (l : List α)
    (a b pivot : Nat) : List α × Nat × Bool :=
  if pSkipI lt (aSwap l a pivot) a (b + 1) (a + 1) (b - 1)
      > pSkipJ lt (aSwap l a pivot) a (b + 1)
          (pSkipI lt (aSwap l a pivot) a (b + 1) (a + 1) (b - 1)) (b - 1) then
    (aSwap (aSwap l a pivot)
      (pSkipJ lt (aSwap l a pivot) a (b + 1)
        (pSkipI lt (aSwap l a pivot) a (b + 1) (a + 1) (b - 1)) (b - 1)) a,
     pSkipJ lt (aSwap l a pivot) a (b + 1)
       (pSkipI lt (aSwap l a pivot) a (b + 1) (a + 1) (b - 1)) (b - 1),
     true)
  else
    match partitionLoop lt a b (b - a + 1)
        (aSwap (aSwap l a pivot)
          (pSkipI lt (aSwap l a pivot) a (b + 1) (a + 1) (b - 1))
          (pSkipJ lt (aSwap l a pivot) a (b + 1)
            (pSkipI lt (aSwap l a pivot) a (b + 1) (a + 1) (b - 1)) (b - 1)))
        (pSkipI lt (aSwap l a pivot) a (b + 1) (a + 1) (b - 1) + 1)
        (pSkipJ lt (aSwap l a pivot) a (b + 1)
          (pSkipI lt (aSwap l a pivot) a (b + 1) (a + 1) (b - 1)) (b - 1) - 1) with
    | (l2, mid) => (l2, mid, false)

/-- Go's `pdqsort_func`: the iterative loop plus the recursion into the
smaller half, with explicit fuel. -/
def pdqsortLoop {α : Type*} [Inhabited α] (lt : α → α → Bool) :
    Nat → List α → Nat → Nat → Nat → Bool → Bool → List α
  | 0, l, _, _, _, _, _ => l
  | fuel + 1, l, a, b, limit, wasBalanced, wasPartitioned =>
      if b - a ≤ 12 then insertionSortRange lt l a b
      else if limit = 0 then heapSortRange lt l a b
      else
        match (if !wasBalanced then breakPatterns lt l a b else l),
            (if !wasBalanced then limit - 1 else limit) with
        | l1, limit1 =>
          match choosePivot lt l1 a b with
          | (pivot0, hint0) =>
            match (if hint0 = .decreasing then reverseRange l1 a b else l1),
                (if hint0 = .decreasing then (b - 1) - (pivot0 - a) else pivot0),
                (if hint0 = .decreasing then SortedHint.increasing else hint0) with
            | l2, pivot, hint =>
              match (if wasBalanced && wasPartitioned && decide (hint = .increasing)
                  then pInsertionSort lt l2 a b else (l2, false)) with
              | (l3, fullySorted) =>
                if fullySorted then l3
                else
                  if a > 0 && !lt (aGet l3 (a - 1)) (aGet l3 pivot) then
                    match partitionEqual lt l3 a b pivot with
                    | (l4, mid) => pdqsortLoop lt fuel l4 mid b limit1 wasBalanced wasPartitioned
                  else
                    match partition lt l3 a b pivot with
                    | (l4, mid, alreadyPartitioned) =>
                      if mid - a < b - mid then
                        pdqsortLoop lt fuel (pdqsortLoop lt fuel l4 a mid limit1 true true)
                          (mid + 1) b limit1
                          (decide (min (mid - a) (b - mid) ≥ (b - a) / 8)) alreadyPartitioned
                      else
                        pdqsortLoop lt fuel (pdqsortLoop lt fuel l4 (mid + 1) b limit1 true true)
                          a mid limit1
                          (decide (min (mid - a) (b - mid) ≥ (b - a) / 8)) alreadyPartitioned

/-- `sort.Slice`: pdqsort over the whole slice with
`limit = bits.Len(length)`. -/
def sortSlice {α : Type*} [Inhabited α] (lt : α → α → Bool) (l : List α) : List α :=
  pdqsortLoop lt (2 * l.length + bitsLen l.length + 8) l 0 l.length (bitsLen l.length) true true

theorem bubbleLeft_perm {α : Type*} (lt : α → α → Bool) (x : α) :
    ∀ r : List α, (bubbleLeft lt x r).Perm (x :: r) := by
  intro r
  induction r with
  | nil => simp [bubbleLeft]
  | cons y ys ih =>
      rw [bubbleLeft]
      by_cases h : lt x y
      · rw [if_pos h]
        exact (ih.cons y).trans (List.Perm.swap x y ys)
      · rw [if_neg h]

theorem foldl_bubble_perm {α : Type*} (lt : α → α → Bool) :
    ∀ (l r : List α), (l.foldl (fun rp x => bubbleLeft lt x rp) r).Perm (l ++ r) := by
  intro l
  induction l with
  | nil => intro r; simp
  | cons x xs ih =>
      intro r
      rw [List.foldl_cons]
      exact (ih (bubbleLeft lt x r)).trans
        ((List.Perm.append_left xs (bubbleLeft_perm lt x r)).trans List.perm_middle)

theorem insertionSortGo_perm {α : Type*} (lt : α → α → Bool) (l : List α) :
    (insertionSortGo lt l).Perm l := by
  unfold insertionSortGo
  exact (List.reverse_perm _).trans ((foldl_bubble_perm lt l []).trans (by simp))

theorem bubbleLeft_sorted_inv {α : Type*} (lt : α → α → Bool)
    (hasym : ∀ a b, lt a b = true → lt b a = false)
    (hnegtrans : ∀ a b c, lt a b = false → lt b c = false → lt a c = false)
    (x : α) :
    ∀ r : List α, r.Pairwise (fun a b => lt a b = false) →
      (bubbleLeft lt x r).Pairwise (fun a b => lt a b = false) := by
  intro r
  induction r with
  | nil => intro _; simp [bubbleLeft]
  | cons y ys ih =>
      intro h
      rw [List.pairwise_cons] at h
      obtain ⟨hy, hys⟩ := h
      rw [bubbleLeft]
      by_cases hlt : lt x y
      · rw [if_pos hlt, List.pairwise_cons]
        refine ⟨?_, ih hys⟩
        intro b hb
        have hb2 : b ∈ x :: ys := (bubbleLeft_perm lt x ys).mem_iff.mp hb
        rcases List.mem_cons.mp hb2 with heq | hb3
        · subst heq
          exact hasym _ y hlt
        · exact hy b hb3
      · rw [if_neg hlt, List.pairwise_cons]
        refine ⟨?_, List.pairwise_cons.mpr ⟨hy, hys⟩⟩
        intro b hb
        rcases List.mem_cons.mp hb with heq | hb2
        · subst heq
          exact Bool.eq_false_iff.mpr hlt
        · exact hnegtrans _ y b (Bool.eq_false_iff.mpr hlt) (hy b hb2)

theorem foldl_bubble_sorted {α : Type*} (lt : α → α → Bool)
    (hasym : ∀ a b, lt a b = true → lt b a = false)
    (hnegtrans : ∀ a b c, lt a b = false → lt b c = false → lt a c = false) :
    ∀ (l r : List α), r.Pairwise (fun a b => lt a b = false) →
      (l.foldl (fun rp x => bubbleLeft lt x rp) r).Pairwise (fun a b => lt a b = false) := by
  intro l
  induction l with
  | nil => intro r h; exact h
  | cons x xs ih =>
      intro r h
      rw [List.foldl_cons]
      exact ih (bubbleLeft lt x r) (bubbleLeft_sorted_inv lt hasym hnegtrans x r h)

theorem insertionSortGo_sorted {α : Type*} (lt : α → α → Bool)
    (hasym : ∀ a b, lt a b = true → lt b a = false)
    (hnegtrans : ∀ a b c, lt a b = false → lt b c = false → lt a c = false)
    (l : List α) :
    (insertionSortGo lt l).Pairwise (fun a b => lt b a = false) := by
  unfold insertionSortGo
  rw [List.pairwise_reverse]
  exact foldl_bubble_sorted lt hasym hnegtrans l [] (by simp)

/-- The comparison closure of `sortIntersections` over index-tagged
points. -/
def tagLt {γ : Type*} (dist : γ → ℚ) (u v : Nat × γ) : Bool := decide (dist u.2 < dist v.2)

/-- Stable order: by distance, ties by original position. -/
def tagS {γ : Type*} (dist : γ → ℚ) (u v : Nat × γ) : Prop :=
  dist u.2 < dist v.2 ∨ (dist u.2 = dist v.2 ∧ u.1 < v.1)

theorem tagS_trans {γ : Type*} (dist : γ → ℚ) {u v w : Nat × γ} :
    tagS dist u v → tagS dist v w → tagS dist u w := by
  intro h1 h2
  rcases h1 with h1 | ⟨h1e, h1i⟩ <;> rcases h2 with h2 | ⟨h2e, h2i⟩
  · exact Or.inl (h1.trans h2)
  · exact Or.inl (h2e ▸ h1)
  · exact Or.inl (h1e ▸ h2)
  · exact Or.inr ⟨h1e.trans h2e, h1i.trans h2i⟩

theorem bubbleLeft_stable_inv {γ : Type*} (dist : γ → ℚ) (x : Nat × γ) :
    ∀ r : List (Nat × γ), r.Pairwise (fun a b => tagS dist b a) →
      (∀ y ∈ r, y.1 < x.1) →
      (bubbleLeft (tagLt dist) x r).Pairwise (fun a b => tagS dist b a) := by
  intro r
  induction r with
  | nil => intro _ _; simp [bubbleLeft]
  | cons y ys ih =>
      intro h hidx
      rw [List.pairwise_cons] at h
      obtain ⟨hy, hys⟩ := h
      rw [bubbleLeft]
      by_cases hlt : tagLt dist x y
      · rw [if_pos hlt, List.pairwise_cons]
        refine ⟨?_, ih hys (fun z hz => hidx z (List.mem_cons_of_mem y hz))⟩
        intro b hb
        have hb2 : b ∈ x :: ys := (bubbleLeft_perm (tagLt dist) x ys).mem_iff.mp hb
        rcases List.mem_cons.mp hb2 with heq | hb3
        · subst heq
          exact Or.inl (of_decide_eq_true hlt)
        · exact hy b hb3
      · rw [if_neg hlt, List.pairwise_cons]
        have hnlt : ¬ (dist x.2 < dist y.2) := of_decide_eq_false (Bool.eq_false_iff.mpr hlt)
        have hSyx : tagS dist y x := by
          rcases lt_trichotomy (dist y.2) (dist x.2) with h3 | h3 | h3
          · exact Or.inl h3
          · exact Or.inr ⟨h3, hidx y (List.mem_cons_self y ys)⟩
          · exact absurd h3 hnlt
        refine ⟨?_, List.pairwise_cons.mpr ⟨hy, hys⟩⟩
        intro b hb
        rcases List.mem_cons.mp hb with heq | hb2
        · subst heq
          exact hSyx
        · exact tagS_trans dist (hy b hb2) hSyx

theorem foldl_bubble_stable {γ : Type*} (dist : γ → ℚ) :
    ∀ (l r : List (Nat × γ)),
      r.Pairwise (fun a b => tagS dist b a) →
      (∀ y ∈ r, ∀ z ∈ l, y.1 < z.1) →
      l.Pairwise (fun u v => u.1 < v.1) →
      (l.foldl (fun rp x => bubbleLeft (tagLt dist) x rp) r).Pairwise
        (fun a b => tagS dist b a) := by
  intro l
  induction l with
  | nil => intro r h _ _; exact h
  | cons x xs ih =>
      intro r h hidx hl
      rw [List.pairwise_cons] at hl
      obtain ⟨hx, hxs⟩ := hl
      rw [List.foldl_cons]
      refine ih (bubbleLeft (tagLt dist) x r) ?_ ?_ hxs
      · exact bubbleLeft_stable_inv dist x r h
          (fun y hy => hidx y hy x (List.mem_cons_self x xs))
      · intro y hy z hz
        have hy2 : y ∈ x :: r := (bubbleLeft_perm (tagLt dist) x r).mem_iff.mp hy
        rcases List.mem_cons.mp hy2 with heq | hy3
        · subst heq
          exact hx z hz
        · exact hidx y hy3 z (List.mem_cons_of_mem x hz)

theorem insertionSortGo_stable {γ : Type*} (dist : γ → ℚ) (l : List (Nat × γ))
    (h : l.Pairwise (fun u v => u.1 < v.1)) :
    (insertionSortGo (tagLt dist) l).Pairwise (tagS dist) := by
  unfold insertionSortGo
  rw [List.pairwise_reverse]
  exact foldl_bubble_stable dist l [] (by simp) (by simp) h

/-- On at most 12 elements, `sort.Slice` is exactly the insertion sort. -/
theorem sortSlice_eq_insertionSortGo_of_le12 {α : Type*} [Inhabited α]
    (lt : α → α → Bool) (l : List α) (h : l.length ≤ 12) :
    sortSlice lt l = insertionSortGo lt l := by
  unfold sortSlice
  have hfuel : 2 * l.length + bitsLen l.length + 8
      = (2 * l.length + bitsLen l.length + 7) + 1 := rfl
  rw [hfuel]
  conv_lhs => rw [pdqsortLoop]
  rw [if_pos (by simpa using h)]
  unfold insertionSortRange slice setSlice
  rw [List.drop_zero, Nat.sub_zero, List.take_length]
  have hlen2 : (insertionSortGo lt l).length = l.length :=
    (insertionSortGo_perm lt l).length_eq
  rw [List.take_zero, Nat.zero_add, hlen2, List.drop_length, List.nil_append,
    List.append_nil]

end GoSort

/-- `sortIntersections(start, points)`: sort by chord-angle distance from
the edge start via `sort.Slice`; `dist` is the chord-angle key
`ChordAngleBetweenPoints(start, ·)` (external primitive). -/
def sortIntersections {γ : Type*} [Inhabited γ] (dist : γ → ℚ) (points : List γ) :
    List γ :=
  GoSort.sortSlice (fun p q => decide (dist p < dist q)) points

/-- Crossing points for the counterexample, tagged with their original
positions: distinct intersection points may lie at the same chord-angle
distance from V0, here distances 5 and 1. -/
def exCrossingPoints : List (Nat × ℚ) :=
  [(0, 5), (1, 5), (2, 5), (3, 5), (4, 5), (5, 5), (6, 1), (7, 1), (8, 1), (9, 1),
   (10, 1), (11, 1), (12, 5)]

/-- C5 counterexample: on these 13 crossing points (`sort.Slice` leaves
insertion sort behind 12 elements), the points are sorted into
non-decreasing distance order, but points at equal distance do NOT keep
their original relative order: the tie class at distance 1 comes out in
position order 9, 6, 7, 8, 10, 11 and the class at distance 5 as
1, 2, 3, 4, 5, 0, 12 — the partition step of pdqsort reorders ties, as
`sort.Slice`'s documentation warns (the sort is not stable). -/
theorem c5_stable_sort_counterexample :
    exCrossingPoints.Pairwise (fun u v => u.1 < v.1)
    ∧ sortIntersections (fun u : Nat × ℚ => u.2) exCrossingPoints
        = [(9, 1), (6, 1), (7, 1), (8, 1), (10, 1), (11, 1), (1, 5), (2, 5), (3, 5),
           (4, 5), (5, 5), (0, 5), (12, 5)]
    ∧ (sortIntersections (fun u : Nat × ℚ => u.2) exCrossingPoints).Pairwise
        (fun u v => u.2 ≤ v.2)
    ∧ ¬ (sortIntersections (fun u : Nat × ℚ => u.2) exCrossingPoints).Pairwise
        (fun u v => u.2 < v.2 ∨ (u.2 = v.2 ∧ u.1 < v.1)) := by
  exact ⟨by decide, by decide, by decide, by decide⟩

/-- C5 (amended): for each processed edge with at most 12 collected
intersection points — where Go's `sort.Slice` runs its insertion sort — the
points are sorted into non-decreasing order of chord-angle distance from V0
(a permutation of the input), and points at equal distance keep their
original relative order (stability, stated over position-tagged points with
the same comparison); beyond 12 points `sort.Slice` is not stable and may
reorder ties. -/
theorem c5_sort_nondecreasing_stable_le12 {γ : Type*} [Inhabited γ]
    (dist : γ → ℚ) (pts : List γ) (hlen : pts.length ≤ 12) :
    (sortIntersections dist pts).Perm pts
    ∧ (sortIntersections dist pts).Pairwise (fun p q => dist p ≤ dist q)
    ∧ (∀ l : List (Nat × γ), l.length ≤ 12 →
        l.Pairwise (fun u v => u.1 < v.1) →
        (GoSort.sortSlice (GoSort.tagLt dist) l).Pairwise (GoSort.tagS dist)) := by
  have hb := GoSort.sortSlice_eq_insertionSortGo_of_le12
    (fun p q => decide (dist p < dist q)) pts hlen
  refine ⟨?_, ?_, ?_⟩
  · rw [sortIntersections, hb]
    exact GoSort.insertionSortGo_perm _ pts
  · rw [sortIntersections, hb]
    have hs := GoSort.insertionSortGo_sorted (fun p q => decide (dist p < dist q))
      (fun a b hab => by
        rw [decide_eq_true_eq] at hab
        rw [decide_eq_false_iff_not]
        exact not_lt_of_gt hab)
      (fun a b c hab hbc => by
        rw [decide_eq_false_iff_not] at hab hbc
        rw [decide_eq_false_iff_not]
        exact not_lt.mpr ((le_of_not_lt hbc).trans (le_of_not_lt hab)))
      pts
    exact hs.imp (fun hba => by
      rw [decide_eq_false_iff_not] at hba
      exact le_of_not_lt hba)
  · intro l hl2 hidx
    rw [GoSort.sortSlice_eq_insertionSortGo_of_le12 (GoSort.tagLt dist) l hl2]
    exact GoSort.insertionSortGo_stable dist l hidx

/-- Witness for the amended C5 at a concrete input with a tie. -/
theorem c5_sort_nondecreasing_stable_le12_witness :
    (([(5 : ℚ), 1, 1]).length ≤ 12)
    ∧ (sortIntersections (fun q : ℚ => q) [5, 1, 1]).Perm [5, 1, 1]
    ∧ (sortIntersections (fun q : ℚ => q) [5, 1, 1]).Pairwise (fun p q => p ≤ q)
    ∧ (GoSort.sortSlice (GoSort.tagLt (fun q : ℚ => q)) [(0, 5), (1, 1), (2, 1)]).Pairwise
        (GoSort.tagS (fun q : ℚ => q)) := by
  have h := c5_sort_nondecreasing_stable_le12 (fun q : ℚ => q) [5, 1, 1] (by decide)
  exact ⟨by decide, h.1, h.2.1, h.2.2 [(0, 5), (1, 1), (2, 1)] (by decide) (by decide)⟩

end Geo
